import Mathlib

/-!
Verification development for the Neural Dive game (qyearsley/fun-learning).

The definitions below are a shallow embedding of the Python sources:
  - `src/neural_dive/map_generation.py` (namespace `NeuralDive`, map builder),
  - `src/neural_dive/game.py` together with `models.py`, `entities.py`,
    `enums.py`, `config.py` (namespace `NeuralDive`, game state machine),
  - `src/backup_neural_dive.py` (namespace `Backup`, the legacy variant with
    knowledge gates).

Python lists of lists become `List (List Char)`; a list-index assignment that
would raise `IndexError` is modelled by an `Option`-valued write returning
`none`.  Python dicts become association lists keyed by `String`, Python sets
become lists with membership-guarded insertion.  The global `random` generator
is modelled by an abstract deterministic stream of naturals (`RNG`);
`random.randint(a, b)` raises when `a > b`, modelled by `none`.  Functions
that can only fail through such a raised exception return `Option`.
-/

namespace NeuralDive

/-! ## Map generation (`map_generation.py`) -/

abbrev Grid := List (List Char)

/-- Read `tiles[y][x]`; `none` models a Python `IndexError`. -/
def getCell (tiles : Grid) (y x : Nat) : Option Char :=
  match tiles.get? y with
  | none => none
  | some row => row.get? x

/-- Write `tiles[y][x] = c`; `none` models a Python `IndexError`. -/
def setCell (tiles : Grid) (y x : Nat) (c : Char) : Option Grid :=
  match tiles.get? y with
  | none => none
  | some row =>
      if x < row.length then some (tiles.set y (row.set x c)) else none

/-- Model of `for x in range(a, b): if x < width: tiles[y][x] = "#"`. -/
def writeRowClamped (tiles : Grid) (width y a b : Nat) : Option Grid :=
  (List.range' a (b - a)).foldlM
    (fun t x => if x < width then setCell t y x '#' else pure t) tiles

/-- Model of `for y in range(a, b): if y < height: tiles[y][x] = "#"`. -/
def writeColClamped (tiles : Grid) (height x a b : Nat) : Option Grid :=
  (List.range' a (b - a)).foldlM
    (fun t y => if y < height then setCell t y x '#' else pure t) tiles

/-- Embedding of `_draw_floor_1_walls`. -/
def draw_floor_1_walls (tiles : Grid) (width height : Nat) : Option Grid := do
  let t ← writeRowClamped tiles width 10 20 35
  let t ← writeColClamped t height 15 5 15
  let t ←
    if height > 18 && width > 30 then do
      let t ← setCell t 18 30 '#'
      let t ← setCell t 18 31 '#'
      setCell t 17 30 '#'
    else
      pure t
  writeRowClamped t width 15 40 46

/-- Embedding of `_draw_floor_2_walls`. -/
def draw_floor_2_walls (tiles : Grid) (width height : Nat) : Option Grid := do
  let t ← writeColClamped tiles height 25 8 18
  let t ← writeColClamped t height 35 5 12
  let t ← writeRowClamped t width 15 15 25
  let t ← writeRowClamped t width 20 30 40
  let t ← writeRowClamped t width 8 10 15
  writeColClamped t height 10 8 12

/-- Embedding of `_draw_floor_3_walls`.  The final loop writes two cells per
iteration, exactly as in the source. -/
def draw_floor_3_walls (tiles : Grid) (width height : Nat) : Option Grid := do
  let t ← writeRowClamped tiles width 12 15 40
  let t ← writeRowClamped t width 8 25 35
  let t ← writeColClamped t height 35 5 12
  let t ← writeColClamped t height 20 15 22
  let t ← writeColClamped t height 10 8 15
  let t ← writeRowClamped t width 18 8 18
  (List.range' 42 (47 - 42)).foldlM
    (fun t x =>
      if x < width then do
        let t ← setCell t 10 x '#'
        setCell t 17 x '#'
      else pure t) t

/-- Embedding of `_draw_floor_walls`. -/
def draw_floor_walls (tiles : Grid) (width height floor : Nat) : Option Grid :=
  if floor = 1 then draw_floor_1_walls tiles width height
  else if floor = 2 then draw_floor_2_walls tiles width height
  else if floor = 3 then draw_floor_3_walls tiles width height
  else pure tiles

/-- Embedding of `create_map` from `map_generation.py`: blank grid, outer wall
ring, floor template, then fill the interior with floor tiles. -/
def create_map (width height : Nat) (floor : Nat := 1) : Option Grid := do
  let tiles : Grid := List.replicate height (List.replicate width ' ')
  let tiles ← (List.range width).foldlM
    (fun t x => do
      let t ← setCell t 0 x '#'
      setCell t (height - 1) x '#') tiles
  let tiles ← (List.range height).foldlM
    (fun t y => do
      let t ← setCell t y 0 '#'
      setCell t y (width - 1) '#') tiles
  let tiles ← draw_floor_walls tiles width height floor
  (List.range' 1 (height - 1 - 1)).foldlM
    (fun t y =>
      (List.range' 1 (width - 1 - 1)).foldlM
        (fun t x => do
          let c ← getCell t y x
          if c ≠ '#' then setCell t y x '.' else pure t) t) tiles

/-- Interior wall cells written by the floor templates, restated cell-wise from
the ranges in `_draw_floor_1_walls` .. `_draw_floor_3_walls` (at dimensions
where every guard `x < width` / `y < height` passes). -/
def templateCell (floor : Nat) (x y : Nat) : Bool :=
  if floor = 1 then
    (y = 10 && 20 ≤ x && x < 35) || (x = 15 && 5 ≤ y && y < 15) ||
    ((x = 30 || x = 31) && y = 18) || (x = 30 && y = 17) ||
    (y = 15 && 40 ≤ x && x < 46)
  else if floor = 2 then
    (x = 25 && 8 ≤ y && y < 18) || (x = 35 && 5 ≤ y && y < 12) ||
    (y = 15 && 15 ≤ x && x < 25) || (y = 20 && 30 ≤ x && x < 40) ||
    (y = 8 && 10 ≤ x && x < 15) || (x = 10 && 8 ≤ y && y < 12)
  else if floor = 3 then
    (y = 12 && 15 ≤ x && x < 40) || (y = 8 && 25 ≤ x && x < 35) ||
    (x = 35 && 5 ≤ y && y < 12) || (x = 20 && 15 ≤ y && y < 22) ||
    (x = 10 && 8 ≤ y && y < 15) || (y = 18 && 8 ≤ x && x < 18) ||
    ((y = 10 || y = 17) && 42 ≤ x && x < 47)
  else
    false

/-- Check that a grid of the given dimensions has a full wall border and that
every interior cell is a wall exactly on the floor template, floor otherwise. -/
def checkGrid (floor width height : Nat) (g : Grid) : Bool :=
  (g.length == height) &&
  g.enum.all fun yrow =>
    (yrow.2.length == width) &&
    yrow.2.enum.all fun xc =>
      if yrow.1 = 0 || yrow.1 = height - 1 || xc.1 = 0 || xc.1 = width - 1 then
        xc.2 == '#'
      else
        xc.2 == (if templateCell floor xc.1 yrow.1 then '#' else '.')

/-- Run `create_map` at the default 50 by 25 dimensions and validate the
result with `checkGrid`. -/
def checkCreateMapDefault (floor : Nat) : Bool :=
  match create_map 50 25 floor with
  | none => false
  | some g => checkGrid floor 50 25 g

/-! ## Data model (`models.py`, `entities.py`, `enums.py`, `config.py`)

Game state quantified over in the theorems below carries the externally
loaded content (`npc_data`, `terminal_data`) as ordinary fields, since the
JSON loading layer is outside the game logic. -/

inductive NPCType where
  | SPECIALIST
  | HELPER
  | ENEMY
  | QUEST
deriving DecidableEq, Repr

structure Answer where
  text : String
  correct : Bool
  response : String
  reward_knowledge : Option String := none
  enemy_penalty : Int := 45
deriving Repr, DecidableEq

structure Question where
  question_text : String
  answers : List Answer
  topic : String
deriving Repr, DecidableEq

structure Conversation where
  npc_name : String
  greeting : String
  questions : List Question
  npc_type : NPCType := .SPECIALIST
  current_question_idx : Nat := 0
  completed : Bool := false
deriving Repr, DecidableEq

/-- Entity from `entities.py`: position, glyph, color and name. -/
structure Entity where
  x : Int
  y : Int
  char : String
  color : String
  name : String
deriving Repr, DecidableEq

structure Stairs where
  x : Int
  y : Int
  direction : String
  char : String
  color : String := "yellow"
deriving Repr, DecidableEq

/-- Constructor of `Stairs`, which derives the glyph from the direction. -/
def Stairs.make (x y : Int) (direction : String) : Stairs :=
  { x := x, y := y, direction := direction,
    char := if direction == "up" then "<" else ">" }

structure InfoTerminal where
  x : Int
  y : Int
  title : String
  content : List String
  char : String := "T"
  color : String := "cyan"
deriving Repr, DecidableEq

/-- Per-NPC entry of the external `npc_data` table, restricted to the fields
`_generate_npcs` reads after initialization. -/
structure NpcInfo where
  floor : Nat
  char : String
  color : String
  npc_type : String := "specialist"
deriving Repr

/-- Per-terminal entry of the external `terminal_data` table. -/
structure TerminalData where
  title : String
  content : List String
deriving Repr

/-- Abstract model of the seeded `random` generator: a deterministic stream of
naturals with a read position. -/
structure RNG where
  stream : Nat → Nat
  pos : Nat

/-- Model of `random.randint(a, b)` (inclusive bounds); `none` models the
`ValueError` raised when `a > b`. -/
def RNG.randint (r : RNG) (a b : Int) : Option (Int × RNG) :=
  if a > b then none
  else some (a + (r.stream r.pos : Int) % (b - a + 1), { r with pos := r.pos + 1 })

/-! Constants from `config.py`. -/

def DEFAULT_MAP_WIDTH : Nat := 50
def DEFAULT_MAP_HEIGHT : Nat := 25
def MAX_FLOORS : Nat := 3
def STARTING_COHERENCE : Int := 80
def MAX_COHERENCE : Int := 100
def CORRECT_ANSWER_COHERENCE_GAIN : Int := 8
def WRONG_ANSWER_COHERENCE_PENALTY : Int := 30
def ENEMY_WRONG_ANSWER_PENALTY : Int := 45
def HELPER_COHERENCE_RESTORE : Int := 15
def QUEST_COMPLETION_COHERENCE_BONUS : Int := 50
def PLAYER_START_X : Int := 5
def PLAYER_START_Y : Int := 5
def STAIRS_DOWN_DEFAULT_X : Int := 45
def STAIRS_DOWN_DEFAULT_Y : Int := 20
def STAIRS_UP_DEFAULT_X : Int := 10
def STAIRS_UP_DEFAULT_Y : Int := 5
def NPC_MIN_DISTANCE_FROM_PLAYER : Int := 5
def NPC_PLACEMENT_ATTEMPTS : Nat := 100
def TERMINAL_PLACEMENT_ATTEMPTS : Nat := 50
def TERMINAL_X_OFFSET : Int := 3
def TERMINAL_Y_OFFSET : Int := 3
def TERMINAL_X_BONUS : Int := 5
def TERMINAL_Y_BONUS : Int := 5

/-- Floor completion requirements; `.get(floor, set())` with default empty.
The Python set literals are kept in literal order. -/
def FLOOR_REQUIRED_NPCS (floor : Nat) : List String :=
  if floor = 1 then ["ALGO_SPIRIT", "HEAP_MASTER", "PATTERN_ARCHITECT"]
  else if floor = 2 then ["WEB_ARCHITECT", "CRYPTO_GUARDIAN", "SYSTEM_CORE", "SCALE_MASTER"]
  else []

def QUEST_TARGET_NPCS : List String :=
  ["ALGO_SPIRIT", "NET_DAEMON", "COMPILER_SAGE", "DB_GUARDIAN"]

/-! Dictionary and set helpers.  Python dicts are association lists iterated
in insertion order; Python sets are lists with membership-guarded insertion. -/

def dictGet {α : Type} : List (String × α) → String → Option α
  | [], _ => none
  | p :: rest, k => if p.1 == k then some p.2 else dictGet rest k

/-- Replace the value stored under an existing key (models mutation of the
object stored in the dict under `k`). -/
def dictSet {α : Type} (m : List (String × α)) (k : String) (v : α) :
    List (String × α) :=
  m.map (fun p => if p.1 == k then (k, v) else p)

/-- Model of `dict[k] = v` which appends when the key is absent. -/
def dictPut {α : Type} (m : List (String × α)) (k : String) (v : α) :
    List (String × α) :=
  match dictGet m k with
  | none => m ++ [(k, v)]
  | some _ => dictSet m k v

/-- Model of `set.add`. -/
def setAdd (s : List String) (x : String) : List String :=
  if x ∈ s then s else s ++ [x]

/-- Add a delta to an opinion counter whose key is already present. -/
def opinionAdd (m : List (String × Int)) (k : String) (d : Int) : List (String × Int) :=
  m.map (fun p => if p.1 == k then (p.1, p.2 + d) else p)

/-- Model of `command.strip().lower()` for the ASCII command strings: trim
whitespace at both ends, lowercase ASCII letters. -/
def isSpaceChar (c : Char) : Bool :=
  c == ' ' || c == '\t' || c == '\n' || c == '\r'

def pyLowerChar (c : Char) : Char :=
  if c.toNat ≥ 65 && c.toNat ≤ 90 then Char.ofNat (c.toNat + 32) else c

def strip_lower (s : String) : String :=
  ⟨(((s.data.dropWhile isSpaceChar).reverse.dropWhile isSpaceChar).reverse).map pyLowerChar⟩

instance : Inhabited Answer :=
  ⟨{ text := "", correct := false, response := "" }⟩

instance : Inhabited Question :=
  ⟨{ question_text := "", answers := [], topic := "" }⟩

/-! ## Game state (`game.py`)

The Python attribute `active_conversation` holds a reference to the very
`Conversation` object stored in the dict `npc_conversations` (it is always
assigned from that dict, keyed by the NPC name).  The embedding stores the
key instead; every mutation of the active conversation is written back
through that key, which models the aliasing exactly.  Fields that exist only
for rendering (`old_npc_positions`, timing, the wandering tick state) are
outside the command API and are not represented. -/

structure Game where
  map_width : Nat
  map_height : Nat
  max_floors : Nat
  current_floor : Nat
  random_npcs : Bool
  rand : RNG
  npc_data : List (String × NpcInfo)
  terminal_data : List (String × TerminalData)
  game_map : Grid
  player : Entity
  old_player_pos : Option (Int × Int)
  npcs : List Entity
  stairs : List Stairs
  terminals : List InfoTerminal
  all_npcs : List Entity
  active_conversation : Option String
  active_terminal : Option InfoTerminal
  npc_conversations : List (String × Conversation)
  coherence : Int
  max_coherence : Int
  knowledge_modules : List String
  questions_answered : Nat
  questions_correct : Nat
  questions_wrong : Nat
  npcs_completed : List String
  game_won : Bool
  npc_opinions : List (String × Int)
  quest_active : Bool
  quest_completed_npcs : List String
  message : String

/-- Embedding of `Game.is_walkable`: bounds check against the grid, then a
wall check.  Grids produced by `create_map` have uniform row lengths, so the
defaulted inner read matches the Python indexing on every reachable state. -/
def is_walkable (g : Game) (x y : Int) : Bool :=
  if y < 0 || y ≥ (g.game_map.length : Int) then false
  else if x < 0 || x ≥ ((g.game_map.headD []).length : Int) then false
  else ((g.game_map.getD y.toNat []).getD x.toNat ' ') != '#'

/-- Embedding of `Game.move_player`. -/
def move_player (g : Game) (dx dy : Int) : Game × Bool :=
  if g.active_conversation.isSome then
    ({ g with message := "You\x27re in a conversation. Answer or press ESC to exit." }, false)
  else
    let new_x := g.player.x + dx
    let new_y := g.player.y + dy
    if is_walkable g new_x new_y then
      let g := { g with old_player_pos := some (g.player.x, g.player.y),
                        player := { g.player with x := new_x, y := new_y } }
      match g.stairs.find? (fun s => s.x == g.player.x && s.y == g.player.y) with
      | some stair =>
          let direction := if stair.direction == "up" then "up" else "down"
          ({ g with message :=
              "Standing on stairs " ++ direction ++ ". Press Space or >/< to use." }, true)
      | none => ({ g with message := "" }, true)
    else
      ({ g with message := "Blocked by firewall!" }, false)

/-- Embedding of `Game.is_floor_complete`. -/
def is_floor_complete (g : Game) : Bool :=
  (FLOOR_REQUIRED_NPCS g.current_floor).all fun npc_name =>
    match dictGet g.npc_conversations npc_name with
    | none => false
    | some conv => conv.completed

/-- Required NPCs of the current floor whose conversation is missing or not
completed (the list comprehension inside `_descend_stairs`). -/
def incomplete_npcs (g : Game) : List String :=
  (FLOOR_REQUIRED_NPCS g.current_floor).filter fun npc =>
    match dictGet g.npc_conversations npc with
    | none => true
    | some c => !c.completed

/-- Read `game_map[y][x]` at signed indices; the callers below only produce
nonnegative indices (their `randint` lower bounds are nonnegative). -/
def getCellI (m : Grid) (y x : Int) : Option Char :=
  if y < 0 || x < 0 then none else getCell m y.toNat x.toNat

/-- Placement attempt loop of `_generate_npcs` (random mode), returning the
accepted cell (or `none` after exhausting the attempts) and the advanced
generator. -/
def place_npc_attempts (gm : Grid) (w h : Nat) (px py : Int) (r : RNG) :
    Nat → Option (Option (Int × Int) × RNG)
  | 0 => some (none, r)
  | fuel + 1 => do
      let (x, r2) ← r.randint 10 ((w : Int) - 2)
      let (y, r2) ← r2.randint 5 ((h : Int) - 2)
      let c ← getCellI gm y x
      if c != '#' &&
          (((x - px).natAbs : Int) > NPC_MIN_DISTANCE_FROM_PLAYER ||
           ((y - py).natAbs : Int) > NPC_MIN_DISTANCE_FROM_PLAYER) then
        some (some (x, y), r2)
      else
        place_npc_attempts gm w h px py r2 fuel

/-- Random-mode placement loop of `_generate_npcs`: when every attempt for
an NPC fails only the RNG advances; a found position reaches the failing
`Entity` construction (see `generate_npcs`). -/
def generate_npcs_random (gm : Grid) (w h : Nat) (px py : Int) :
    List (String × NpcInfo) → RNG → Option RNG
  | [], r => some r
  | _ :: rest, r => do
      let (found, r) ← place_npc_attempts gm w h px py r NPC_PLACEMENT_ATTEMPTS
      match found with
      | none => generate_npcs_random gm w h px py rest r
      | some _ => none

/-- Fixed NPC positions used when `random_npcs` is off. -/
def NPC_FIXED_POSITIONS : List (Int × Int) :=
  [(15, 8), (35, 8), (25, 12), (40, 15), (10, 18), (45, 12), (30, 20)]

/-- Fixed-mode placement loop of `_generate_npcs`: a floor NPC whose index
is beyond the position list is skipped; one with a position reaches the same
failing `Entity` construction (see `generate_npcs`). -/
def generate_npcs_fixed : List (Nat × String × NpcInfo) → Option Unit
  | [] => some ()
  | (i, _, _) :: rest =>
      match NPC_FIXED_POSITIONS.get? i with
      | none => generate_npcs_fixed rest
      | some _ => none

/-- Embedding of `Game._generate_npcs`.  Both placement branches construct
`Entity(x, y, char, color, name, npc_type=...)`, but `entities.Entity.__init__`
accepts no `npc_type` keyword, so the construction raises `TypeError`
(embedded as `none`) as soon as any floor NPC is actually placed; the method
returns normally only when no NPC is placed (no floor NPC, or — in random
mode — every placement attempt fails, which only advances the RNG). -/
def generate_npcs (g : Game) : Option Game :=
  let floor_npcs := g.npc_data.filter (fun p => p.2.floor == g.current_floor)
  if g.random_npcs then
    match generate_npcs_random g.game_map g.map_width g.map_height
        g.player.x g.player.y floor_npcs g.rand with
    | none => none
    | some r => some { g with rand := r }
  else
    match generate_npcs_fixed floor_npcs.enum with
    | none => none
    | some _ => some g

/-- Terminal definitions by floor, inlined in `_generate_terminals`. -/
def TERMINAL_DEFS (floor : Nat) : Option (List (String × Int × Int)) :=
  if floor = 1 then some [("big_o_hint", 8, 8), ("lore_layer1", 12, 10)]
  else if floor = 2 then
    some [("data_structures", 8, 8), ("tcp_hint", 12, 10),
          ("devops_guide", 15, 8), ("lore_layer2", 8, 12)]
  else if floor = 3 then some [("concurrency_hint", 8, 8), ("database_basics", 12, 8)]
  else none

/-- Jitter loop of `_generate_terminals` (random mode): keep the nominal
coordinates when every attempt fails. -/
def terminal_jitter (gm : Grid) (w h : Nat) (x y : Int) (r : RNG) :
    Nat → Option (Int × Int × RNG)
  | 0 => some (x, y, r)
  | fuel + 1 => do
      let (tx, r2) ← r.randint (max 2 (x - TERMINAL_X_OFFSET))
        (min ((w : Int) - 2) (x + TERMINAL_X_BONUS))
      let (ty, r2) ← r2.randint (max 2 (y - TERMINAL_Y_OFFSET))
        (min ((h : Int) - 2) (y + TERMINAL_Y_BONUS))
      let c ← getCellI gm ty tx
      if c != '#' then some (tx, ty, r2) else terminal_jitter gm w h x y r2 fuel

/-- Placement of the terminal list for the current floor. -/
def generate_terminals_list (td : List (String × TerminalData)) (gm : Grid)
    (w h : Nat) (random_npcs : Bool) :
    List (String × Int × Int) → List InfoTerminal → RNG →
    Option (List InfoTerminal × RNG)
  | [], terms, r => some (terms, r)
  | (key, x, y) :: rest, terms, r =>
      match dictGet td key with
      | none => generate_terminals_list td gm w h random_npcs rest terms r
      | some data =>
          if random_npcs then do
            let (x, y, r) ← terminal_jitter gm w h x y r TERMINAL_PLACEMENT_ATTEMPTS
            generate_terminals_list td gm w h random_npcs rest
              (terms ++ [{ x := x, y := y, title := data.title, content := data.content }]) r
          else
            generate_terminals_list td gm w h random_npcs rest
              (terms ++ [{ x := x, y := y, title := data.title, content := data.content }]) r

/-- Embedding of `Game._generate_terminals`. -/
def generate_terminals (g : Game) : Option Game :=
  match TERMINAL_DEFS g.current_floor with
  | none => some g
  | some defs =>
      match generate_terminals_list g.terminal_data g.game_map g.map_width g.map_height
          g.random_npcs defs g.terminals g.rand with
      | none => none
      | some (terms, r) => some { g with terminals := terms, rand := r }

/-- Placement attempts for the down stairs (random mode). -/
def place_stairs_down (gm : Grid) (w h : Nat) (px : Int) (r : RNG) :
    Nat → Option (Option (Int × Int) × RNG)
  | 0 => some (none, r)
  | fuel + 1 => do
      let (x, r2) ← r.randint ((w / 2 : Nat) : Int) ((w : Int) - 2)
      let (y, r2) ← r2.randint ((h / 2 : Nat) : Int) ((h : Int) - 2)
      let c ← getCellI gm y x
      if c != '#' && ((x - px).natAbs : Int) > 10 then some (some (x, y), r2)
      else place_stairs_down gm w h px r2 fuel

/-- Placement attempts for the up stairs (random mode). -/
def place_stairs_up (gm : Grid) (w h : Nat) (r : RNG) :
    Nat → Option (Option (Int × Int) × RNG)
  | 0 => some (none, r)
  | fuel + 1 => do
      let (x, r2) ← r.randint 2 ((w / 3 : Nat) : Int)
      let (y, r2) ← r2.randint 2 ((h / 3 : Nat) : Int)
      let c ← getCellI gm y x
      if c != '#' then some (some (x, y), r2)
      else place_stairs_up gm w h r2 fuel

/-- Down-stairs half of `Game._generate_stairs` (placed when not on the
bottom floor). -/
def generate_stairs_down_part (g : Game) : Option Game :=
  if g.current_floor < g.max_floors then
    if g.random_npcs then
      match place_stairs_down g.game_map g.map_width g.map_height
          g.player.x g.rand NPC_PLACEMENT_ATTEMPTS with
      | none => none
      | some (found, r) =>
          match found with
          | some (x, y) =>
              some { g with stairs := g.stairs ++ [Stairs.make x y "down"], rand := r }
          | none => some { g with rand := r }
    else
      some { g with stairs :=
        g.stairs ++ [Stairs.make STAIRS_DOWN_DEFAULT_X STAIRS_DOWN_DEFAULT_Y "down"] }
  else
    some g

/-- Up-stairs half of `Game._generate_stairs` (placed when not on floor 1). -/
def generate_stairs_up_part (g : Game) : Option Game :=
  if g.current_floor > 1 then
    if g.random_npcs then
      match place_stairs_up g.game_map g.map_width g.map_height
          g.rand NPC_PLACEMENT_ATTEMPTS with
      | none => none
      | some (found, r) =>
          match found with
          | some (x, y) =>
              some { g with stairs := g.stairs ++ [Stairs.make x y "up"], rand := r }
          | none => some { g with rand := r }
    else
      some { g with stairs :=
        g.stairs ++ [Stairs.make STAIRS_UP_DEFAULT_X STAIRS_UP_DEFAULT_Y "up"] }
  else
    some g

/-- Embedding of `Game._generate_stairs`. -/
def generate_stairs (g : Game) : Option Game :=
  match generate_stairs_down_part g with
  | none => none
  | some g => generate_stairs_up_part g

/-- Embedding of `Game._generate_floor`: clear the floor-local entity lists,
then regenerate NPCs, terminals and stairs. -/
def generate_floor (g : Game) : Option Game :=
  match generate_npcs { g with npcs := [], stairs := [], terminals := [] } with
  | none => none
  | some g =>
      match generate_terminals g with
      | none => none
      | some g => generate_stairs g

/-- Embedding of `Game._descend_stairs`.  Past the two refusal checks the
source calls `create_map(self.map_width, self.map_height, self.current_floor,
seed=self.seed)`, but `map_generation.create_map(width, height, floor=1)`
accepts no `seed` parameter, so the call raises `TypeError` before any new
map is assigned (embedded as `none`): the descent body can never run to its
`return True`. -/
def descend_stairs (g : Game) : Option (Game × Bool) :=
  if g.current_floor ≥ g.max_floors then
    some ({ g with message := "No deeper layers exist." }, false)
  else if !(is_floor_complete g) then
    some ({ g with message := "Cannot descend! Complete conversations with: " ++
      String.intercalate ", " (incomplete_npcs g) }, false)
  else
    none

/-- Embedding of `Game._ascend_stairs`: past the top-layer check the same
`seed` keyword against the seedless `create_map` raises `TypeError`. -/
def ascend_stairs (g : Game) : Option (Game × Bool) :=
  if g.current_floor ≤ 1 then
    some ({ g with message := "This is the top layer." }, false)
  else
    none

/-- First stair at the player position whose direction is `down` or `up`
(the loop in `use_stairs` keeps scanning past stairs with any other
direction string). -/
def find_usable_stair (px py : Int) : List Stairs → Option Stairs
  | [] => none
  | s :: rest =>
      if s.x == px && s.y == py && (s.direction == "down" || s.direction == "up") then
        some s
      else find_usable_stair px py rest

/-- Embedding of `Game.use_stairs`. -/
def use_stairs (g : Game) : Option (Game × Bool) :=
  match find_usable_stair g.player.x g.player.y g.stairs with
  | some s => if s.direction == "down" then descend_stairs g else ascend_stairs g
  | none =>
      some ({ g with message := "No stairs here. Stand on stairs (> or <) and press Enter." },
        false)

/-- Embedding of `Game._handle_quest_npc`. -/
def handle_quest_npc (g : Game) (npc_name : String) (conversation : Conversation) :
    Game × Bool :=
  if conversation.completed = false then
    ({ g with quest_active := true,
              message := conversation.greeting,
              npc_conversations := dictSet g.npc_conversations npc_name
                { conversation with completed := true } }, true)
  else
    if QUEST_TARGET_NPCS.all (fun n => g.quest_completed_npcs.contains n) then
      let msg := npc_name ++
        ": You have completed my quest! The knowledge is yours. [Quest Complete! +" ++
        toString QUEST_COMPLETION_COHERENCE_BONUS ++ " Coherence]"
      ({ g with message := msg,
                coherence := min g.max_coherence
                  (g.coherence + QUEST_COMPLETION_COHERENCE_BONUS) }, true)
    else
      let remaining := QUEST_TARGET_NPCS.filter (fun n => !(g.quest_completed_npcs.contains n))
      let msg := npc_name ++ ": Seek these guardians still: " ++
        String.intercalate ", " remaining
      ({ g with message := msg }, true)

/-- Embedding of `Game._interact_with_npc`. -/
def interact_with_npc (g : Game) (npc : Entity) : Game × Bool :=
  let npc_name := npc.name
  match dictGet g.npc_conversations npc_name with
  | none => ({ g with message := npc_name ++ ": I have nothing to say." }, false)
  | some conversation =>
      if conversation.npc_type = NPCType.HELPER ∧ conversation.completed = false then
        ({ g with
            coherence := min g.max_coherence (g.coherence + HELPER_COHERENCE_RESTORE),
            npc_conversations := dictSet g.npc_conversations npc_name
              { conversation with completed := true },
            message := npc_name ++ ": Your coherence has been restored. [+" ++
              toString HELPER_COHERENCE_RESTORE ++ " Coherence]" }, true)
      else if conversation.npc_type = NPCType.QUEST then
        handle_quest_npc g npc_name conversation
      else if conversation.completed = false then
        ({ g with active_conversation := some npc_name,
                  message := conversation.greeting }, true)
      else
        ({ g with message := npc_name ++
            ": You have proven yourself. We have nothing more to discuss." }, true)

/-- Candidate entity kinds of `Game.interact`. -/
inductive Interactable where
  | terminal (t : InfoTerminal)
  | npc (e : Entity)
  | stairs (s : Stairs)
deriving DecidableEq

/-- The priority map `{"npc": 0, "terminal": 1, "stairs": 2}`. -/
def Interactable.priority : Interactable → Nat
  | .npc _ => 0
  | .terminal _ => 1
  | .stairs _ => 2

/-- Chebyshev distance `max(abs(px - x), abs(py - y))`. -/
def chebyshev (px py x y : Int) : Nat :=
  max (px - x).natAbs (py - y).natAbs

/-- Candidate list of `Game.interact`: terminals, then NPCs, then stairs,
each with its distance, keeping only entities at distance at most 1. -/
def interact_candidates (g : Game) : List (Interactable × Nat) :=
  (g.terminals.filterMap fun t =>
    let d := chebyshev g.player.x g.player.y t.x t.y
    if d ≤ 1 then some (.terminal t, d) else none) ++
  (g.npcs.filterMap fun n =>
    let d := chebyshev g.player.x g.player.y n.x n.y
    if d ≤ 1 then some (.npc n, d) else none) ++
  (g.stairs.filterMap fun s =>
    let d := chebyshev g.player.x g.player.y s.x s.y
    if d ≤ 1 then some (.stairs s, d) else none)

/-- Sort key comparison of `candidates.sort(key=lambda x: (x[1], priority))`:
distance first, then kind priority. -/
def candLe (a b : Interactable × Nat) : Bool :=
  a.2 < b.2 || (a.2 == b.2 && a.1.priority ≤ b.1.priority)

/-- Stable insertion used by `pySort`: a new element goes after every
already-placed element that compares less-or-equal to it. -/
def insertSorted (x : Interactable × Nat) : List (Interactable × Nat) →
    List (Interactable × Nat)
  | [] => [x]
  | y :: ys => if candLe y x then y :: insertSorted x ys else x :: y :: ys

/-- Stable sort modelling the Python stable `list.sort` (a stable sort by a
key is uniquely determined, so insertion sort embeds it faithfully). -/
def pySort (l : List (Interactable × Nat)) : List (Interactable × Nat) :=
  l.foldl (fun acc x => insertSorted x acc) []

/-- The candidate `Game.interact` ends up dispatching on: the head of the
stably sorted candidate list. -/
def interact_choice (g : Game) : Option (Interactable × Nat) :=
  (pySort (interact_candidates g)).head?

/-- Embedding of `Game.interact`. -/
def interact (g : Game) : Option (Game × Bool) :=
  match interact_choice g with
  | none =>
      some ({ g with message :=
        "No one nearby to interact with. Look for NPCs or Terminals (▣)." }, false)
  | some (.terminal t, _) =>
      some ({ g with active_terminal := some t, message := "Reading: " ++ t.title }, true)
  | some (.npc e, _) => some (interact_with_npc g e)
  | some (.stairs _, _) => use_stairs g

/-- Victory bosses checked by `_handle_correct_answer` on the final floor. -/
def victory_bosses : List String :=
  ["VIRUS_HUNTER", "THEORY_ORACLE", "AI_CONSCIOUSNESS"]

/-- Embedding of `Game._handle_correct_answer`; `key` is the dict key the
active conversation object is stored under.  The `is_enemy` flag is passed
but unused, as in the source. -/
def handle_correct_answer (g : Game) (key : String) (conv : Conversation)
    (answer : Answer) (npc_name : String) (_is_enemy : Bool) : Game × Bool × String :=
  let g := { g with
    coherence := min g.max_coherence (g.coherence + CORRECT_ANSWER_COHERENCE_GAIN),
    npc_opinions := opinionAdd g.npc_opinions npc_name 1,
    questions_answered := g.questions_answered + 1,
    questions_correct := g.questions_correct + 1 }
  let response := answer.response
  let reward := match answer.reward_knowledge with
    | some k => if k == "" then none else some k
    | none => none
  let g := match reward with
    | some k => { g with knowledge_modules := setAdd g.knowledge_modules k }
    | none => g
  let response := match reward with
    | some k => response ++ "\n\n[+" ++ toString CORRECT_ANSWER_COHERENCE_GAIN ++
        " Coherence]\n[Gained: " ++ k ++ "]"
    | none => response ++ "\n\n[+" ++ toString CORRECT_ANSWER_COHERENCE_GAIN ++ " Coherence]"
  let conv := { conv with current_question_idx := conv.current_question_idx + 1 }
  let g := { g with npc_conversations := dictSet g.npc_conversations key conv }
  if conv.current_question_idx ≥ conv.questions.length then
    let conv := { conv with completed := true }
    let g := { g with npc_conversations := dictSet g.npc_conversations key conv,
                      npcs_completed := setAdd g.npcs_completed npc_name }
    let g := if g.current_floor = g.max_floors && victory_bosses.contains npc_name then
        { g with game_won := true }
      else g
    let g := if conv.npc_type = NPCType.SPECIALIST then
        { g with quest_completed_npcs := setAdd g.quest_completed_npcs npc_name }
      else g
    let g := { g with active_conversation := none }
    (g, true, response ++ "\n\n" ++ npc_name ++
      ": You have proven your worth. I grant you passage.")
  else
    (g, true, response)

/-- Embedding of `Game._handle_wrong_answer`.  The conversation argument is
passed but never mutated or read, as in the source. -/
def handle_wrong_answer (g : Game) (_conv : Conversation) (answer : Answer)
    (npc_name : String) (is_enemy : Bool) : Game × Bool × String :=
  let penalty := if is_enemy then ENEMY_WRONG_ANSWER_PENALTY
                 else WRONG_ANSWER_COHERENCE_PENALTY
  let g := { g with
    coherence := max 0 (g.coherence - penalty),
    npc_opinions := opinionAdd g.npc_opinions npc_name (-1),
    questions_answered := g.questions_answered + 1,
    questions_wrong := g.questions_wrong + 1 }
  let response :=
    if is_enemy then
      answer.response ++ "\n\n[CRITICAL ERROR! -" ++ toString penalty ++ " Coherence]"
    else
      answer.response ++ "\n\n[-" ++ toString penalty ++ " Coherence]"
  if g.coherence ≤ 0 then
    ({ g with active_conversation := none }, false,
     response ++ "\n\n[SYSTEM FAILURE - COHERENCE LOST]")
  else
    (g, false, response)

/-- Embedding of `Game.answer_question`.  The fallback branch on a missing
dict entry mirrors the no-conversation result; it is unreachable because the
stored key always names the dict entry the Python reference points at. -/
def answer_question (g : Game) (answer_index : Int) : Game × Bool × String :=
  match g.active_conversation with
  | none => (g, false, "Not in a conversation.")
  | some key =>
      match dictGet g.npc_conversations key with
      | none => (g, false, "Not in a conversation.")
      | some conv =>
          if conv.current_question_idx ≥ conv.questions.length then
            ({ g with
                npc_conversations := dictSet g.npc_conversations key
                  { conv with completed := true },
                active_conversation := none }, true, "Conversation completed!")
          else
            let question := conv.questions.getD conv.current_question_idx default
            if answer_index < 0 ∨ answer_index ≥ (question.answers.length : Int) then
              (g, false, "Invalid answer choice.")
            else
              let answer := question.answers.getD answer_index.toNat default
              let npc_name := conv.npc_name
              let opinions :=
                match dictGet g.npc_opinions npc_name with
                | none => g.npc_opinions ++ [(npc_name, 0)]
                | some _ => g.npc_opinions
              let g := { g with npc_opinions := opinions }
              let is_enemy := conv.npc_type == NPCType.ENEMY
              if answer.correct then
                handle_correct_answer g key conv answer npc_name is_enemy
              else
                handle_wrong_answer g conv answer npc_name is_enemy

/-- Embedding of `Game.exit_conversation`. -/
def exit_conversation (g : Game) : Game × Bool :=
  if g.active_conversation.isSome then
    ({ g with active_conversation := none, message := "Conversation ended." }, true)
  else
    (g, false)

/-- Embedding of `Game.process_command`.  `none` models a Python exception
escaping the command (possible only in the stairs and interact paths through
floor regeneration on undersized grids). -/
def process_command (g : Game) (command : String) : Option (Game × Bool × String) :=
  let command := strip_lower command
  if g.active_conversation.isSome &&
      (command == "1" || command == "2" || command == "3" || command == "4") then
    let answer_idx : Int :=
      (if command == "1" then 1 else if command == "2" then 2
       else if command == "3" then 3 else 4) - 1
    some (answer_question g answer_idx)
  else if command == "up" || command == "w" then
    let r := move_player g 0 (-1)
    some (r.1, r.2, if r.1.message == "" then "moved up" else r.1.message)
  else if command == "down" || command == "s" then
    let r := move_player g 0 1
    some (r.1, r.2, if r.1.message == "" then "moved down" else r.1.message)
  else if command == "left" || command == "a" then
    let r := move_player g (-1) 0
    some (r.1, r.2, if r.1.message == "" then "moved left" else r.1.message)
  else if command == "right" || command == "d" then
    let r := move_player g 1 0
    some (r.1, r.2, if r.1.message == "" then "moved right" else r.1.message)
  else if command == "interact" || command == "i" then
    match interact g with
    | none => none
    | some r => some (r.1, r.2, r.1.message)
  else if command == "stairs" || command == "use" || command == ">" || command == "<" then
    match use_stairs g with
    | none => none
    | some r => some (r.1, r.2, r.1.message)
  else if command == "exit" || command == "esc" then
    let r := exit_conversation g
    some (r.1, r.2, r.1.message)
  else
    some (g, false, "Unknown command: " ++ command)

/-- Run a sequence of commands through `process_command`, threading the
state; `none` as soon as one command raises. -/
def run_commands (g : Game) : List String → Option Game
  | [] => some g
  | c :: cs =>
      match process_command g c with
      | none => none
      | some (g2, _, _) => run_commands g2 cs

end NeuralDive

namespace Backup

/-! ## Legacy variant (`backup_neural_dive.py`)

Only the parts that decide the gate behaviour are embedded: the `Gate`
class, `is_walkable` and `move_player`.  The state carries exactly the
fields those methods touch. -/

/-- Embedding of the `Gate` class. -/
structure Gate where
  x : Int
  y : Int
  required_knowledge : String
  unlocked : Bool := false
  char : String := "█"
  color : String := "magenta"
deriving Repr, DecidableEq

/-- Fields of the backup `Game` reached from `move_player`. -/
structure BGame where
  game_map : NeuralDive.Grid
  gates : List Gate
  player_x : Int
  player_y : Int
  old_player_pos : Option (Int × Int)
  knowledge_modules : List String
  active_conversation : Option String
  message : String

/-- Embedding of the backup `is_walkable`: bounds, wall, then a scan for a
locked gate at the position. -/
def is_walkable (g : BGame) (x y : Int) : Bool :=
  if y < 0 || y ≥ (g.game_map.length : Int) then false
  else if x < 0 || x ≥ ((g.game_map.headD []).length : Int) then false
  else if ((g.game_map.getD y.toNat []).getD x.toNat ' ') == '#' then false
  else !(g.gates.any (fun gate => gate.x == x && gate.y == y && !gate.unlocked))

/-- The gate scan at the head of the backup `move_player`: the loop returns
on the first locked gate at the target cell, unlocking it when the required
token is owned; unlocked gates at the cell are passed over. -/
def check_gates (nx ny : Int) (km : List String) :
    List Gate → Option (List Gate × String)
  | [] => none
  | gate :: rest =>
      if gate.x == nx && gate.y == ny && !gate.unlocked then
        if km.contains gate.required_knowledge then
          some ({ gate with unlocked := true } :: rest,
            "Gate unlocked with [" ++ gate.required_knowledge ++ "] knowledge!")
        else
          some (gate :: rest,
            "Gate locked! Requires [" ++ gate.required_knowledge ++ "] knowledge.")
      else
        match check_gates nx ny km rest with
        | none => none
        | some (rest2, msg) => some (gate :: rest2, msg)

/-- Embedding of the backup `move_player`. -/
def move_player (g : BGame) (dx dy : Int) : BGame × Bool :=
  if g.active_conversation.isSome then
    ({ g with message := "You\x27re in a conversation. Answer or press ESC to exit." }, false)
  else
    let new_x := g.player_x + dx
    let new_y := g.player_y + dy
    match check_gates new_x new_y g.knowledge_modules g.gates with
    | some (gates2, msg) => ({ g with gates := gates2, message := msg }, false)
    | none =>
        if is_walkable g new_x new_y then
          ({ g with old_player_pos := some (g.player_x, g.player_y),
                    player_x := new_x, player_y := new_y, message := "" }, true)
        else
          ({ g with message := "Blocked by firewall!" }, false)

/-- First locked gate at a cell, in list order (the gate the backup
`move_player` loop acts on). -/
def first_locked_gate_at : List Gate → Int → Int → Option Gate
  | [], _, _ => none
  | gate :: rest, x, y =>
      if gate.x == x && gate.y == y && !gate.unlocked then some gate
      else first_locked_gate_at rest x y

/-- Unlock the first locked gate at a cell, leaving every other gate
unchanged. -/
def unlock_first_at (x y : Int) : List Gate → List Gate
  | [] => []
  | gate :: rest =>
      if gate.x == x && gate.y == y && !gate.unlocked then
        { gate with unlocked := true } :: rest
      else
        gate :: unlock_first_at x y rest

end Backup

namespace NeuralDive

/-! ## Relations used by the invariant theorems -/

/-- Single-conversation evolution allowed by the engine: the identity and
question list never change, the question index never decreases and never
passes `max idx (len questions)`, and `completed` is a one-way latch. -/
def ConvStep (c c' : Conversation) : Prop :=
  c'.npc_name = c.npc_name ∧
  c'.greeting = c.greeting ∧
  c'.questions = c.questions ∧
  c'.npc_type = c.npc_type ∧
  c.current_question_idx ≤ c'.current_question_idx ∧
  c'.current_question_idx ≤ max c.current_question_idx c.questions.length ∧
  (c.completed = true → c'.completed = true)

/-- Every conversation stored in the dict evolves by `ConvStep`. -/
def ConvsMono (m m' : List (String × Conversation)) : Prop :=
  ∀ k c, dictGet m k = some c → ∃ c', dictGet m' k = some c' ∧ ConvStep c c'

/-- Contiguous substring test on the underlying character lists. -/
def listContainsSub (needle : List Char) : List Char → Bool
  | [] => needle.isEmpty
  | c :: rest => needle.isPrefixOf (c :: rest) || listContainsSub needle rest

def strContainsSub (hay needle : String) : Bool :=
  listContainsSub needle.data hay.data

/-! ## Concrete states used by witnesses and counterexamples -/

def sampleRng : RNG := { stream := fun _ => 0, pos := 0 }

def sampleGrid : Grid :=
  [['#', '#', '#', '#', '#'],
   ['#', '.', '.', '.', '#'],
   ['#', '.', '.', '.', '#'],
   ['#', '.', '.', '.', '#'],
   ['#', '#', '#', '#', '#']]

def baseGame : Game :=
  { map_width := 5, map_height := 5, max_floors := 3, current_floor := 1,
    random_npcs := false, rand := sampleRng, npc_data := [], terminal_data := [],
    game_map := sampleGrid,
    player := { x := 2, y := 2, char := "@", color := "cyan", name := "Data Runner" },
    old_player_pos := none, npcs := [], stairs := [], terminals := [], all_npcs := [],
    active_conversation := none, active_terminal := none, npc_conversations := [],
    coherence := 80, max_coherence := 100, knowledge_modules := [],
    questions_answered := 0, questions_correct := 0, questions_wrong := 0,
    npcs_completed := [], game_won := false, npc_opinions := [],
    quest_active := false, quest_completed_npcs := [], message := "" }

def rightAnswer : Answer :=
  { text := "A", correct := true, response := "Yes.", reward_knowledge := some "binary_search" }

def wrongAnswer : Answer :=
  { text := "B", correct := false, response := "No." }

def quizQuestion : Question :=
  { question_text := "Complexity of binary search?",
    answers := [wrongAnswer, rightAnswer], topic := "algorithms" }

def quizConv : Conversation :=
  { npc_name := "ALGO_SPIRIT", greeting := "Greetings.", questions := [quizQuestion] }

/-- Completed empty conversation for a named NPC. -/
def doneConv (n : String) : Conversation :=
  { npc_name := n, greeting := "", questions := [], completed := true }

/-- Completed QUEST conversation, as left behind by the first quest
interaction. -/
def questConv : Conversation :=
  { npc_name := "ORACLE", greeting := "Find the guardians.", questions := [],
    npc_type := NPCType.QUEST, completed := true }

def oracleNpc : Entity :=
  { x := 2, y := 3, char := "O", color := "magenta", name := "ORACLE" }

/-- State for C1: quest conversation completed, all four target NPCs in the
quest-completed set, coherence well below the cap. -/
def questGame : Game :=
  { baseGame with
    npc_conversations := [("ORACLE", questConv)],
    quest_completed_npcs := QUEST_TARGET_NPCS,
    coherence := 10 }

/-- State for C9 and C5 witnesses: an active quiz conversation at low
coherence. -/
def lowCoherenceGame : Game :=
  { baseGame with
    active_conversation := some "ALGO_SPIRIT",
    npc_conversations := [("ALGO_SPIRIT", quizConv)],
    coherence := 5 }

/-- State for the C6 witness: an active quiz conversation at full health. -/
def quizGame : Game :=
  { baseGame with
    active_conversation := some "ALGO_SPIRIT",
    npc_conversations := [("ALGO_SPIRIT", quizConv)] }

def quizGameAfter : Game :=
  match run_commands quizGame ["2"] with
  | some g => g
  | none => quizGame

/-- Expected conversation record after answering question 1 correctly. -/
def quizConvAfter : Conversation :=
  { quizConv with current_question_idx := 1, completed := true }

/-- State for the C4 counterexample: standing on down stairs on the last
floor with the floor-1 requirements untouched. -/
def maxFloorGame : Game :=
  { baseGame with max_floors := 1, stairs := [Stairs.make 2 2 "down"] }

/-- A state that passes both descent checks: floor 1 complete (all three
required NPCs completed), below `max_floors`, standing on a down stair. -/
def descendGame : Game :=
  { baseGame with
    map_width := 8, map_height := 5,
    stairs := [Stairs.make 2 2 "down"],
    npc_conversations :=
      [("ALGO_SPIRIT", doneConv "ALGO_SPIRIT"),
       ("HEAP_MASTER", doneConv "HEAP_MASTER"),
       ("PATTERN_ARCHITECT", doneConv "PATTERN_ARCHITECT")] }

/-- State for the C8 witness: an NPC, a terminal and a stair all adjacent. -/
def adjNpc : Entity :=
  { x := 3, y := 2, char := "A", color := "green", name := "ALGO_SPIRIT" }

def adjTerminal : InfoTerminal :=
  { x := 2, y := 3, title := "Big O", content := ["..."] }

def adjStairs : Stairs := Stairs.make 3 3 "down"

def crowdedGame : Game :=
  { baseGame with npcs := [adjNpc], terminals := [adjTerminal], stairs := [adjStairs] }

def c5GameAfter : Game :=
  match process_command lowCoherenceGame "1" with
  | some (g, _, _) => g
  | none => lowCoherenceGame

end NeuralDive

namespace Backup

/-- Open 5 by 5 map for the gate scenarios. -/
def openMap : NeuralDive.Grid :=
  [['#', '#', '#', '#', '#'],
   ['#', '.', '.', '.', '#'],
   ['#', '.', '.', '.', '#'],
   ['#', '.', '.', '.', '#'],
   ['#', '#', '#', '#', '#']]

def hashGate : Gate := { x := 3, y := 2, required_knowledge := "hashing" }

/-- Backup-variant state for the C3 witness: a locked gate one step right of
the player, required token owned. -/
def gateGame : BGame :=
  { game_map := openMap, gates := [hashGate], player_x := 2, player_y := 2,
    old_player_pos := none, knowledge_modules := ["hashing"],
    active_conversation := none, message := "" }

def gateGameAfter : BGame :=
  (move_player gateGame 1 0).1

end Backup

namespace NeuralDive

/-! ## Helper lemmas -/

lemma exists_of_checkCreateMapDefault (f : Nat) (h : checkCreateMapDefault f = true) :
    ∃ g, create_map 50 25 f = some g ∧ checkGrid f 50 25 g = true := by
  unfold checkCreateMapDefault at h
  cases hc : create_map 50 25 f with
  | none => rw [hc] at h; exact absurd h (by simp)
  | some g => rw [hc] at h; exact ⟨g, rfl, h⟩

/-- With no authored template, `_draw_floor_walls` is the identity, so every
floor outside 1..3 builds the same grid as floor 0. -/
lemma create_map_no_template (w h f : Nat) (h1 : f ≠ 1) (h2 : f ≠ 2) (h3 : f ≠ 3) :
    create_map w h f = create_map w h 0 := by
  simp [create_map, draw_floor_walls, h1, h2, h3]

lemma checkGrid_no_template (f w h : Nat) (g : Grid) (h1 : f ≠ 1) (h2 : f ≠ 2) (h3 : f ≠ 3) :
    checkGrid f w h g = checkGrid 0 w h g := by
  simp [checkGrid, templateCell, h1, h2, h3]

end NeuralDive

/-! ## Claims about the map builder -/

/-- C2: the claim states that every template wall-segment coordinate falling
outside a small custom grid is silently truncated, so `build(width, height,
floor)` is total and never writes out of bounds for all positive dimensions.
The code guards only the loop coordinate of each segment (`if x < width`)
and not the segment's fixed orthogonal coordinate: at width 25, height 8,
floor 1 the first floor-1 segment writes row 10 of an 8-row grid, an
out-of-bounds write (`IndexError`), modelled here as `none`. -/
theorem create_map_unclamped_fixed_row_crashes :
    NeuralDive.create_map 25 8 1 = none := by decide

/-- C7 counterexample: at width 30, height 10, floor 2 the template column
at x = 35 is written with only the row index guarded, so `build` raises
instead of producing a grid; hence the claim quantified over all dimensions
fails (no grid with a walled border is produced at this input). -/
theorem create_map_small_grid_errors :
    NeuralDive.create_map 30 10 2 = none := by decide

namespace Backup

lemma check_gates_of_no_locked (nx ny : Int) (km : List String) (gates : List Gate)
    (h : first_locked_gate_at gates nx ny = none) :
    check_gates nx ny km gates = none := by
  induction gates with
  | nil => rfl
  | cons gate rest ih =>
      by_cases hc : (gate.x == nx && gate.y == ny && !gate.unlocked) = true
      · simp only [first_locked_gate_at, hc, if_true] at h
        exact absurd h (by simp)
      · simp only [first_locked_gate_at, hc, Bool.false_eq_true, if_false] at h
        simp only [check_gates, hc, Bool.false_eq_true, if_false]
        rw [ih h]

lemma check_gates_of_locked_no_token (nx ny : Int) (km : List String) (gates : List Gate)
    (gt : Gate) (hfind : first_locked_gate_at gates nx ny = some gt)
    (htok : km.contains gt.required_knowledge = false) :
    check_gates nx ny km gates =
      some (gates, "Gate locked! Requires [" ++ gt.required_knowledge ++ "] knowledge.") := by
  induction gates with
  | nil => exact absurd hfind (by simp [first_locked_gate_at])
  | cons gate rest ih =>
      by_cases hc : (gate.x == nx && gate.y == ny && !gate.unlocked) = true
      · simp only [first_locked_gate_at, hc, if_true, Option.some.injEq] at hfind
        subst hfind
        simp only [check_gates, hc, if_true, htok, Bool.false_eq_true, if_false]
      · simp only [first_locked_gate_at, hc, Bool.false_eq_true, if_false] at hfind
        simp only [check_gates, hc, Bool.false_eq_true, if_false]
        rw [ih hfind]

lemma check_gates_of_locked_token (nx ny : Int) (km : List String) (gates : List Gate)
    (gt : Gate) (hfind : first_locked_gate_at gates nx ny = some gt)
    (htok : km.contains gt.required_knowledge = true) :
    check_gates nx ny km gates =
      some (unlock_first_at nx ny gates,
        "Gate unlocked with [" ++ gt.required_knowledge ++ "] knowledge!") := by
  induction gates with
  | nil => exact absurd hfind (by simp [first_locked_gate_at])
  | cons gate rest ih =>
      by_cases hc : (gate.x == nx && gate.y == ny && !gate.unlocked) = true
      · simp only [first_locked_gate_at, hc, if_true, Option.some.injEq] at hfind
        subst hfind
        simp only [check_gates, unlock_first_at, hc, if_true, htok]
      · simp only [first_locked_gate_at, hc, Bool.false_eq_true, if_false] at hfind
        simp only [check_gates, unlock_first_at, hc, Bool.false_eq_true, if_false]
        rw [ih hfind]

lemma first_locked_of_any_false (x y : Int) (gates : List Gate)
    (h : (gates.any fun gate => gate.x == x && gate.y == y && !gate.unlocked) = false) :
    first_locked_gate_at gates x y = none := by
  induction gates with
  | nil => rfl
  | cons gate rest ih =>
      simp only [List.any_cons, Bool.or_eq_false_iff] at h
      simp only [first_locked_gate_at, h.1, Bool.false_eq_true, if_false]
      exact ih h.2

end Backup

open Backup in
/-- C3: moving onto a cell holding a locked gate never moves the player that
turn: without the required token the move fails with the locked message and
the gates are unchanged; with the token the gate flips to unlocked (and the
move still fails); a later move onto the now-walkable cell succeeds. -/
theorem gate_unlock_two_step (g : Backup.BGame) (dx dy : Int) (gt : Backup.Gate)
    (hact : g.active_conversation = none)
    (hfound : Backup.first_locked_gate_at g.gates (g.player_x + dx) (g.player_y + dy) = some gt) :
    (g.knowledge_modules.contains gt.required_knowledge = false →
      Backup.move_player g dx dy =
        ({ g with message := "Gate locked! Requires [" ++ gt.required_knowledge ++ "] knowledge." },
         false)) ∧
    (g.knowledge_modules.contains gt.required_knowledge = true →
      Backup.move_player g dx dy =
        ({ g with gates := Backup.unlock_first_at (g.player_x + dx) (g.player_y + dy) g.gates,
                  message := "Gate unlocked with [" ++ gt.required_knowledge ++ "] knowledge!" },
         false)) ∧
    (∀ g2 : Backup.BGame, g2.active_conversation = none →
      Backup.is_walkable g2 (g2.player_x + dx) (g2.player_y + dy) = true →
      Backup.move_player g2 dx dy =
        ({ g2 with old_player_pos := some (g2.player_x, g2.player_y),
                   player_x := g2.player_x + dx, player_y := g2.player_y + dy,
                   message := "" }, true)) := by
  refine ⟨?_, ?_, ?_⟩
  · intro htok
    unfold Backup.move_player
    rw [hact]
    simp only [Option.isSome_none, Bool.false_eq_true, if_false]
    rw [Backup.check_gates_of_locked_no_token _ _ _ _ gt hfound htok]
  · intro htok
    unfold Backup.move_player
    rw [hact]
    simp only [Option.isSome_none, Bool.false_eq_true, if_false]
    rw [Backup.check_gates_of_locked_token _ _ _ _ gt hfound htok]
  · intro g2 hact2 hwalk
    have hany : (g2.gates.any fun gate => gate.x == g2.player_x + dx &&
        gate.y == g2.player_y + dy && !gate.unlocked) = false := by
      unfold Backup.is_walkable at hwalk
      split at hwalk
      · simp at hwalk
      · split at hwalk
        · simp at hwalk
        · split at hwalk
          · simp at hwalk
          · simpa using hwalk
    have hnolock := Backup.first_locked_of_any_false (g2.player_x + dx) (g2.player_y + dy)
      g2.gates hany
    unfold Backup.move_player
    rw [hact2]
    simp only [Option.isSome_none, Bool.false_eq_true, if_false]
    rw [Backup.check_gates_of_no_locked _ _ _ _ hnolock, hwalk]
    rfl

open Backup in
/-- C3 witness: the concrete gate state with the token owned, plus the
successful follow-up move onto the unlocked cell. -/
theorem gate_unlock_two_step_witness :
    Backup.move_player Backup.gateGame 1 0 =
      ({ Backup.gateGame with
          gates := Backup.unlock_first_at (Backup.gateGame.player_x + 1)
            (Backup.gateGame.player_y + 0) Backup.gateGame.gates,
          message := "Gate unlocked with [hashing] knowledge!" }, false) ∧
    (Backup.move_player Backup.gateGameAfter 1 0).2 = true ∧
    (Backup.move_player Backup.gateGameAfter 1 0).1.player_x = 3 := by
  have h := gate_unlock_two_step Backup.gateGame 1 0 Backup.hashGate rfl (by decide)
  refine ⟨h.2.1 (by decide), ?_, ?_⟩
  · rw [h.2.2 Backup.gateGameAfter (by decide) (by decide)]
  · rw [h.2.2 Backup.gateGameAfter (by decide) (by decide)]
    decide

namespace NeuralDive

lemma candLe_iff (a b : Interactable × Nat) :
    candLe a b = true ↔ (a.2 < b.2 ∨ (a.2 = b.2 ∧ a.1.priority ≤ b.1.priority)) := by
  simp [candLe, Bool.or_eq_true, Bool.and_eq_true, decide_eq_true_eq, beq_iff_eq]

lemma candLe_total (a b : Interactable × Nat) : candLe a b = true ∨ candLe b a = true := by
  rw [candLe_iff, candLe_iff]
  omega

lemma candLe_trans (a b c : Interactable × Nat) (h1 : candLe a b = true)
    (h2 : candLe b c = true) : candLe a c = true := by
  rw [candLe_iff] at h1 h2 ⊢
  omega

lemma candLe_refl (a : Interactable × Nat) : candLe a a = true := by
  rw [candLe_iff]
  omega

lemma mem_insertSorted (x z : Interactable × Nat) (l : List (Interactable × Nat)) :
    z ∈ insertSorted x l ↔ z = x ∨ z ∈ l := by
  induction l with
  | nil => simp [insertSorted]
  | cons y ys ih =>
      unfold insertSorted
      by_cases hc : candLe y x = true
      · simp only [hc, if_true, List.mem_cons, ih]
        tauto
      · simp only [hc, Bool.false_eq_true, if_false, List.mem_cons]

lemma pairwise_insertSorted (x : Interactable × Nat) (l : List (Interactable × Nat))
    (h : l.Pairwise fun a b => candLe a b = true) :
    (insertSorted x l).Pairwise fun a b => candLe a b = true := by
  induction l with
  | nil => simp [insertSorted]
  | cons y ys ih =>
      rcases List.pairwise_cons.mp h with ⟨hy, hys⟩
      unfold insertSorted
      by_cases hc : candLe y x = true
      · simp only [hc, if_true]
        refine List.pairwise_cons.mpr ⟨?_, ih hys⟩
        intro z hz
        rcases (mem_insertSorted x z ys).mp hz with rfl | hz2
        · exact hc
        · exact hy z hz2
      · have hxy : candLe x y = true := (candLe_total x y).resolve_right (by simpa using hc)
        simp only [hc, Bool.false_eq_true, if_false]
        refine List.pairwise_cons.mpr ⟨?_, h⟩
        intro z hz
        rcases List.mem_cons.mp hz with rfl | hz2
        · exact hxy
        · exact candLe_trans x y z hxy (hy z hz2)

lemma mem_foldl_insertSorted (l : List (Interactable × Nat)) :
    ∀ (acc : List (Interactable × Nat)) (z : Interactable × Nat),
      z ∈ l.foldl (fun acc x => insertSorted x acc) acc ↔ z ∈ acc ∨ z ∈ l := by
  induction l with
  | nil => simp
  | cons x xs ih =>
      intro acc z
      simp only [List.foldl_cons, ih, mem_insertSorted, List.mem_cons]
      tauto

lemma mem_pySort (l : List (Interactable × Nat)) (z : Interactable × Nat) :
    z ∈ pySort l ↔ z ∈ l := by
  unfold pySort
  rw [mem_foldl_insertSorted]
  simp

lemma pairwise_foldl_insertSorted (l : List (Interactable × Nat)) :
    ∀ acc : List (Interactable × Nat),
      (acc.Pairwise fun a b => candLe a b = true) →
      (l.foldl (fun acc x => insertSorted x acc) acc).Pairwise fun a b => candLe a b = true := by
  induction l with
  | nil => intro acc h; simpa using h
  | cons x xs ih =>
      intro acc h
      exact ih (insertSorted x acc) (pairwise_insertSorted x acc h)

lemma pairwise_pySort (l : List (Interactable × Nat)) :
    (pySort l).Pairwise fun a b => candLe a b = true :=
  pairwise_foldl_insertSorted l [] (by simp)

end NeuralDive

open NeuralDive in
/-- C8: whenever `interact` has a candidate to dispatch on, that candidate
is one of the adjacent interactables and is lexicographically minimal:
strictly smaller Chebyshev distance than any other candidate, or equal
distance and a kind priority at most as large (NPC 0, terminal 1, stairs 2). -/
theorem interact_selects_lex_minimal_candidate (g : NeuralDive.Game)
    (c : NeuralDive.Interactable × Nat)
    (h : NeuralDive.interact_choice g = some c) :
    c ∈ NeuralDive.interact_candidates g ∧
    ∀ z ∈ NeuralDive.interact_candidates g,
      c.2 < z.2 ∨ (c.2 = z.2 ∧ c.1.priority ≤ z.1.priority) := by
  unfold NeuralDive.interact_choice at h
  cases hs : NeuralDive.pySort (NeuralDive.interact_candidates g) with
  | nil => rw [hs] at h; exact absurd h (by simp)
  | cons c0 rest =>
      rw [hs] at h
      simp only [List.head?_cons, Option.some.injEq] at h
      subst h
      constructor
      · exact (NeuralDive.mem_pySort _ _).mp (hs ▸ List.mem_cons_self _ rest)
      · intro z hz
        have hzs : z ∈ NeuralDive.pySort (NeuralDive.interact_candidates g) :=
          (NeuralDive.mem_pySort _ _).mpr hz
        rw [hs] at hzs
        rcases List.mem_cons.mp hzs with rfl | hz2
        · exact (NeuralDive.candLe_iff _ _).mp (NeuralDive.candLe_refl _)
        · have hp := NeuralDive.pairwise_pySort (NeuralDive.interact_candidates g)
          rw [hs] at hp
          exact (NeuralDive.candLe_iff _ z).mp
            ((List.pairwise_cons.mp hp).1 z hz2)

open NeuralDive in
/-- C8 witness: NPC, terminal and stairs all at distance 1; the NPC is
selected and its key is minimal against the terminal candidate. -/
theorem interact_selects_lex_minimal_candidate_witness :
    (NeuralDive.Interactable.npc NeuralDive.adjNpc, 1) ∈
      NeuralDive.interact_candidates NeuralDive.crowdedGame ∧
    ((1 : Nat) < 1 ∨ ((1 : Nat) = 1 ∧
      (NeuralDive.Interactable.npc NeuralDive.adjNpc).priority ≤
      (NeuralDive.Interactable.terminal NeuralDive.adjTerminal).priority)) := by
  have h := interact_selects_lex_minimal_candidate NeuralDive.crowdedGame
    (NeuralDive.Interactable.npc NeuralDive.adjNpc, 1) (by decide)
  exact ⟨h.1, h.2 (NeuralDive.Interactable.terminal NeuralDive.adjTerminal, 1) (by decide)⟩

open NeuralDive in
/-- C4: the claim says use-stairs on a down-stairs cell is refused with a
message listing the still-incomplete required NPCs when the floor is
incomplete or already at `max_floors`, and otherwise succeeds, incrementing
the floor and regenerating the map and entities.  The code can never perform
the success half: past its two refusal checks `_descend_stairs` calls
`create_map(..., seed=self.seed)`, and `map_generation.create_map` has no
`seed` parameter, so the call raises `TypeError` unconditionally.  Proved in
general — every outcome of `descend_stairs` is an exception (`none`) or a
refusal that returns `false` and only sets the message — and at the concrete
state `descendGame`, which satisfies both checks (floor 1 complete, below
`max_floors`, standing on down stairs) yet raises.  The refusal half is also
off at the bottom layer: the message there is the fixed
`"No deeper layers exist."`, which names no required NPC even when one is
still incomplete (state `maxFloorGame`, required NPC ALGO_SPIRIT). -/
theorem descend_stairs_never_succeeds :
    (∀ g : NeuralDive.Game,
        NeuralDive.descend_stairs g = none ∨
        ∃ m, NeuralDive.descend_stairs g = some ({ g with message := m }, false)) ∧
    NeuralDive.is_floor_complete NeuralDive.descendGame = true ∧
    NeuralDive.descendGame.current_floor < NeuralDive.descendGame.max_floors ∧
    NeuralDive.find_usable_stair NeuralDive.descendGame.player.x
      NeuralDive.descendGame.player.y NeuralDive.descendGame.stairs =
      some (NeuralDive.Stairs.make 2 2 "down") ∧
    NeuralDive.use_stairs NeuralDive.descendGame = none ∧
    NeuralDive.use_stairs NeuralDive.maxFloorGame =
      some ({ NeuralDive.maxFloorGame with message := "No deeper layers exist." }, false) ∧
    NeuralDive.is_floor_complete NeuralDive.maxFloorGame = false ∧
    "ALGO_SPIRIT" ∈ NeuralDive.FLOOR_REQUIRED_NPCS NeuralDive.maxFloorGame.current_floor ∧
    NeuralDive.strContainsSub "No deeper layers exist." "ALGO_SPIRIT" = false := by
  refine ⟨fun g => ?_, by decide, by decide, by decide, rfl, rfl, by decide, by decide,
    by decide⟩
  unfold NeuralDive.descend_stairs
  split
  · exact Or.inr ⟨_, rfl⟩
  · split
    · exact Or.inr ⟨_, rfl⟩
    · exact Or.inl rfl

namespace NeuralDive

lemma move_player_coherence (g : Game) (dx dy : Int) :
    (move_player g dx dy).1.coherence = g.coherence ∧
    (move_player g dx dy).1.max_coherence = g.max_coherence := by
  simp only [move_player]
  split
  · exact ⟨rfl, rfl⟩
  · split
    · split
      · exact ⟨rfl, rfl⟩
      · exact ⟨rfl, rfl⟩
    · exact ⟨rfl, rfl⟩

lemma exit_conversation_coherence (g : Game) :
    (exit_conversation g).1.coherence = g.coherence ∧
    (exit_conversation g).1.max_coherence = g.max_coherence := by
  unfold exit_conversation
  split
  · exact ⟨rfl, rfl⟩
  · exact ⟨rfl, rfl⟩

lemma handle_correct_answer_coherence (g : Game) (key : String) (conv : Conversation)
    (answer : Answer) (npc_name : String) (ie : Bool) :
    (handle_correct_answer g key conv answer npc_name ie).1.coherence =
      min g.max_coherence (g.coherence + CORRECT_ANSWER_COHERENCE_GAIN) ∧
    (handle_correct_answer g key conv answer npc_name ie).1.max_coherence =
      g.max_coherence ∧
    (handle_correct_answer g key conv answer npc_name ie).2.1 = true := by
  simp only [handle_correct_answer]
  repeat' split
  all_goals exact ⟨rfl, rfl, rfl⟩

lemma handle_wrong_answer_coherence (g : Game) (conv : Conversation)
    (answer : Answer) (npc_name : String) (ie : Bool) :
    (handle_wrong_answer g conv answer npc_name ie).1.coherence =
      max 0 (g.coherence -
        (if ie then ENEMY_WRONG_ANSWER_PENALTY else WRONG_ANSWER_COHERENCE_PENALTY)) ∧
    (handle_wrong_answer g conv answer npc_name ie).1.max_coherence = g.max_coherence ∧
    (handle_wrong_answer g conv answer npc_name ie).2.1 = false := by
  simp only [handle_wrong_answer]
  repeat' split
  all_goals exact ⟨rfl, rfl, rfl⟩

lemma answer_question_coherence (g : Game) (i : Int)
    (hlo : 0 ≤ g.coherence) (hhi : g.coherence ≤ g.max_coherence) :
    (0 ≤ (answer_question g i).1.coherence ∧
      (answer_question g i).1.coherence ≤ (answer_question g i).1.max_coherence) ∧
    ((answer_question g i).2.1 = true → g.coherence ≤ (answer_question g i).1.coherence) ∧
    ((answer_question g i).2.1 = false → (answer_question g i).1.coherence ≤ g.coherence) := by
  unfold answer_question
  split
  · exact ⟨⟨hlo, hhi⟩, fun _ => le_refl _, fun _ => le_refl _⟩
  · rename_i key hkey
    split
    · exact ⟨⟨hlo, hhi⟩, fun _ => le_refl _, fun _ => le_refl _⟩
    · rename_i conv hconv
      split
      · exact ⟨⟨hlo, hhi⟩, fun _ => le_refl _, fun _ => le_refl _⟩
      · dsimp only
        split
        · exact ⟨⟨hlo, hhi⟩, fun _ => le_refl _, fun _ => le_refl _⟩
        · split
          · rename_i hcorrect
            obtain ⟨hc, hm, hok⟩ := handle_correct_answer_coherence
              ({ g with npc_opinions :=
                match dictGet g.npc_opinions conv.npc_name with
                | none => g.npc_opinions ++ [(conv.npc_name, 0)]
                | some _ => g.npc_opinions }) key conv _ conv.npc_name
              (conv.npc_type == NPCType.ENEMY)
            dsimp only at hc hm hok ⊢
            rw [hc, hm, hok]
            simp only [CORRECT_ANSWER_COHERENCE_GAIN]
            refine ⟨⟨le_min (by omega) (by omega), min_le_left _ _⟩, ?_, ?_⟩
            · intro _
              exact le_min hhi (by omega)
            · intro hff
              exact absurd hff (by simp)
          · rename_i hwrong
            obtain ⟨hc, hm, hok⟩ := handle_wrong_answer_coherence
              ({ g with npc_opinions :=
                match dictGet g.npc_opinions conv.npc_name with
                | none => g.npc_opinions ++ [(conv.npc_name, 0)]
                | some _ => g.npc_opinions }) conv _ conv.npc_name
              (conv.npc_type == NPCType.ENEMY)
            dsimp only at hc hm hok ⊢
            rw [hc, hm, hok]
            simp only [ENEMY_WRONG_ANSWER_PENALTY, WRONG_ANSWER_COHERENCE_PENALTY]
            refine ⟨⟨le_max_left _ _, max_le (by omega) ?_⟩, ?_, ?_⟩
            · split
              · omega
              · omega
            · intro htf
              exact absurd htf (by simp)
            · intro _
              apply max_le (by omega)
              split
              · omega
              · omega

end NeuralDive

namespace NeuralDive

lemma handle_quest_npc_coherence (g : Game) (n : String) (conv : Conversation)
    (hlo : 0 ≤ g.coherence) (hhi : g.coherence ≤ g.max_coherence) :
    0 ≤ (handle_quest_npc g n conv).1.coherence ∧
    (handle_quest_npc g n conv).1.coherence ≤ (handle_quest_npc g n conv).1.max_coherence := by
  unfold handle_quest_npc
  split
  · exact ⟨hlo, hhi⟩
  · split
    · exact ⟨le_min (by omega) (by simp only [QUEST_COMPLETION_COHERENCE_BONUS]; omega),
        min_le_left _ _⟩
    · exact ⟨hlo, hhi⟩

lemma interact_with_npc_coherence (g : Game) (npc : Entity)
    (hlo : 0 ≤ g.coherence) (hhi : g.coherence ≤ g.max_coherence) :
    0 ≤ (interact_with_npc g npc).1.coherence ∧
    (interact_with_npc g npc).1.coherence ≤ (interact_with_npc g npc).1.max_coherence := by
  unfold interact_with_npc
  dsimp only
  split
  · exact ⟨hlo, hhi⟩
  · split
    · exact ⟨le_min (by omega) (by simp only [HELPER_COHERENCE_RESTORE]; omega),
        min_le_left _ _⟩
    · split
      · exact handle_quest_npc_coherence g _ _ hlo hhi
      · split
        · exact ⟨hlo, hhi⟩
        · exact ⟨hlo, hhi⟩

lemma descend_stairs_coherence (g g' : Game) (b : Bool)
    (h : descend_stairs g = some (g', b)) :
    g'.coherence = g.coherence ∧ g'.max_coherence = g.max_coherence := by
  unfold descend_stairs at h
  split at h
  · simp only [Option.some.injEq, Prod.mk.injEq] at h
    obtain ⟨h1, -⟩ := h
    rw [← h1]
    exact ⟨rfl, rfl⟩
  · split at h
    · simp only [Option.some.injEq, Prod.mk.injEq] at h
      obtain ⟨h1, -⟩ := h
      rw [← h1]
      exact ⟨rfl, rfl⟩
    · exact absurd h (by simp)

lemma ascend_stairs_coherence (g g' : Game) (b : Bool)
    (h : ascend_stairs g = some (g', b)) :
    g'.coherence = g.coherence ∧ g'.max_coherence = g.max_coherence := by
  unfold ascend_stairs at h
  split at h
  · simp only [Option.some.injEq, Prod.mk.injEq] at h
    obtain ⟨h1, -⟩ := h
    rw [← h1]
    exact ⟨rfl, rfl⟩
  · exact absurd h (by simp)

lemma use_stairs_coherence (g g' : Game) (b : Bool)
    (h : use_stairs g = some (g', b)) :
    g'.coherence = g.coherence ∧ g'.max_coherence = g.max_coherence := by
  unfold use_stairs at h
  split at h
  · rename_i s hfind
    split at h
    · exact descend_stairs_coherence g g' b h
    · exact ascend_stairs_coherence g g' b h
  · simp only [Option.some.injEq, Prod.mk.injEq] at h
    obtain ⟨h1, -⟩ := h
    rw [← h1]
    exact ⟨rfl, rfl⟩

lemma interact_coherence (g : Game) (g' : Game) (b : Bool)
    (h : interact g = some (g', b))
    (hlo : 0 ≤ g.coherence) (hhi : g.coherence ≤ g.max_coherence) :
    0 ≤ g'.coherence ∧ g'.coherence ≤ g'.max_coherence := by
  unfold interact at h
  split at h
  · simp only [Option.some.injEq, Prod.mk.injEq] at h
    obtain ⟨h1, -⟩ := h
    rw [← h1]
    exact ⟨hlo, hhi⟩
  · simp only [Option.some.injEq, Prod.mk.injEq] at h
    obtain ⟨h1, -⟩ := h
    rw [← h1]
    exact ⟨hlo, hhi⟩
  · rename_i e n hchoice
    simp only [Option.some.injEq] at h
    have hb := interact_with_npc_coherence g e hlo hhi
    rw [h] at hb
    exact hb
  · obtain ⟨hc, hm⟩ := use_stairs_coherence g g' b h
    rw [hc, hm]
    exact ⟨hlo, hhi⟩

end NeuralDive

namespace NeuralDive

lemma digit_guard_true (g : Game) (cmd : String)
    (hsome : g.active_conversation.isSome = true)
    (hdig : strip_lower cmd = "1" ∨ strip_lower cmd = "2" ∨
      strip_lower cmd = "3" ∨ strip_lower cmd = "4") :
    (g.active_conversation.isSome &&
      (strip_lower cmd == "1" || strip_lower cmd == "2" ||
       strip_lower cmd == "3" || strip_lower cmd == "4")) = true := by
  rw [hsome]
  rcases hdig with h | h | h | h <;> simp [h]

end NeuralDive

open NeuralDive in
/-- C5: every command of the API keeps coherence inside `[0, max_coherence]`
(given it starts there), and on answer commands a successful (correct)
answer never decreases coherence while a failed one never increases it. -/
theorem coherence_invariant_and_answer_monotonicity
    (g : NeuralDive.Game) (cmd : String) (g' : NeuralDive.Game) (ok : Bool) (msg : String)
    (hrun : NeuralDive.process_command g cmd = some (g', ok, msg))
    (hlo : 0 ≤ g.coherence) (hhi : g.coherence ≤ g.max_coherence) :
    (0 ≤ g'.coherence ∧ g'.coherence ≤ g'.max_coherence) ∧
    (g.active_conversation.isSome = true →
      (NeuralDive.strip_lower cmd = "1" ∨ NeuralDive.strip_lower cmd = "2" ∨
       NeuralDive.strip_lower cmd = "3" ∨ NeuralDive.strip_lower cmd = "4") →
      (ok = true → g.coherence ≤ g'.coherence) ∧
      (ok = false → g'.coherence ≤ g.coherence)) := by
  simp only [NeuralDive.process_command] at hrun
  split at hrun
  · rename_i hguard
    simp only [Option.some.injEq] at hrun
    have ha := NeuralDive.answer_question_coherence g
      ((if NeuralDive.strip_lower cmd == "1" then 1
        else if NeuralDive.strip_lower cmd == "2" then 2
        else if NeuralDive.strip_lower cmd == "3" then 3 else 4) - 1) hlo hhi
    rw [hrun] at ha
    exact ⟨ha.1, fun _ _ => ha.2⟩
  · rename_i hguard
    have hcontra : g.active_conversation.isSome = true →
        (NeuralDive.strip_lower cmd = "1" ∨ NeuralDive.strip_lower cmd = "2" ∨
         NeuralDive.strip_lower cmd = "3" ∨ NeuralDive.strip_lower cmd = "4") →
        (ok = true → g.coherence ≤ g'.coherence) ∧
        (ok = false → g'.coherence ≤ g.coherence) := by
      intro hsome hdig
      exact absurd (NeuralDive.digit_guard_true g cmd hsome hdig) hguard
    refine ⟨?_, hcontra⟩
    split at hrun
    · simp only [Option.some.injEq, Prod.mk.injEq] at hrun
      obtain ⟨h1, -⟩ := hrun
      obtain ⟨hc, hm⟩ := NeuralDive.move_player_coherence g 0 (-1)
      rw [h1] at hc hm
      rw [hc, hm]
      exact ⟨hlo, hhi⟩
    · split at hrun
      · simp only [Option.some.injEq, Prod.mk.injEq] at hrun
        obtain ⟨h1, -⟩ := hrun
        obtain ⟨hc, hm⟩ := NeuralDive.move_player_coherence g 0 1
        rw [h1] at hc hm
        rw [hc, hm]
        exact ⟨hlo, hhi⟩
      · split at hrun
        · simp only [Option.some.injEq, Prod.mk.injEq] at hrun
          obtain ⟨h1, -⟩ := hrun
          obtain ⟨hc, hm⟩ := NeuralDive.move_player_coherence g (-1) 0
          rw [h1] at hc hm
          rw [hc, hm]
          exact ⟨hlo, hhi⟩
        · split at hrun
          · simp only [Option.some.injEq, Prod.mk.injEq] at hrun
            obtain ⟨h1, -⟩ := hrun
            obtain ⟨hc, hm⟩ := NeuralDive.move_player_coherence g 1 0
            rw [h1] at hc hm
            rw [hc, hm]
            exact ⟨hlo, hhi⟩
          · split at hrun
            · split at hrun
              · exact absurd hrun (by simp)
              · rename_i r hmatch
                simp only [Option.some.injEq, Prod.mk.injEq] at hrun
                obtain ⟨h1, -⟩ := hrun
                have hb := NeuralDive.interact_coherence g r.1 r.2 hmatch hlo hhi
                rw [h1] at hb
                exact hb
            · split at hrun
              · split at hrun
                · exact absurd hrun (by simp)
                · rename_i r hmatch
                  simp only [Option.some.injEq, Prod.mk.injEq] at hrun
                  obtain ⟨h1, -⟩ := hrun
                  obtain ⟨hc, hm⟩ := NeuralDive.use_stairs_coherence g r.1 r.2 hmatch
                  rw [h1] at hc hm
                  rw [hc, hm]
                  exact ⟨hlo, hhi⟩
              · split at hrun
                · simp only [Option.some.injEq, Prod.mk.injEq] at hrun
                  obtain ⟨h1, -⟩ := hrun
                  obtain ⟨hc, hm⟩ := NeuralDive.exit_conversation_coherence g
                  rw [h1] at hc hm
                  rw [hc, hm]
                  exact ⟨hlo, hhi⟩
                · simp only [Option.some.injEq, Prod.mk.injEq] at hrun
                  obtain ⟨h1, -⟩ := hrun
                  rw [← h1]
                  exact ⟨hlo, hhi⟩

open NeuralDive in
/-- C5 witness: answering wrongly at coherence 5 keeps coherence in bounds
and does not increase it. -/
theorem coherence_invariant_witness :
    (0 ≤ NeuralDive.c5GameAfter.coherence ∧
      NeuralDive.c5GameAfter.coherence ≤ NeuralDive.c5GameAfter.max_coherence) ∧
    NeuralDive.c5GameAfter.coherence ≤ NeuralDive.lowCoherenceGame.coherence := by
  have h := coherence_invariant_and_answer_monotonicity NeuralDive.lowCoherenceGame "1"
    NeuralDive.c5GameAfter false
    (NeuralDive.answer_question NeuralDive.lowCoherenceGame 0).2.2 rfl (by decide) (by decide)
  exact ⟨h.1, (h.2 rfl (Or.inl rfl)).2 rfl⟩

namespace NeuralDive

lemma convStep_refl (c : Conversation) : ConvStep c c :=
  ⟨rfl, rfl, rfl, rfl, le_refl _, le_max_left _ _, fun h => h⟩

lemma convStep_trans (a b c : Conversation) (h1 : ConvStep a b) (h2 : ConvStep b c) :
    ConvStep a c := by
  obtain ⟨n1, g1, q1, t1, i1, u1, c1⟩ := h1
  obtain ⟨n2, g2, q2, t2, i2, u2, c2⟩ := h2
  refine ⟨n2.trans n1, g2.trans g1, q2.trans q1, t2.trans t1, i1.trans i2, ?_, fun h => c2 (c1 h)⟩
  rw [q1] at u2
  omega

lemma convsMono_refl (m : List (String × Conversation)) : ConvsMono m m :=
  fun _k c h => ⟨c, h, convStep_refl c⟩

lemma convsMono_trans (a b c : List (String × Conversation))
    (h1 : ConvsMono a b) (h2 : ConvsMono b c) : ConvsMono a c := by
  intro k cv h
  obtain ⟨c1, hg1, hs1⟩ := h1 k cv h
  obtain ⟨c2, hg2, hs2⟩ := h2 k c1 hg1
  exact ⟨c2, hg2, convStep_trans _ _ _ hs1 hs2⟩

lemma dictGet_dictSet_self {α : Type} (m : List (String × α)) (k : String) (v : α) (c : α)
    (h : dictGet m k = some c) : dictGet (dictSet m k v) k = some v := by
  induction m with
  | nil => simp [dictGet] at h
  | cons p rest ih =>
      by_cases hp : (p.1 == k) = true
      · simp [dictGet, dictSet, hp]
      · simp only [dictGet, hp, Bool.false_eq_true, if_false] at h
        simp only [dictSet, List.map_cons, hp, Bool.false_eq_true, if_false]
        simp only [dictGet, hp, Bool.false_eq_true, if_false]
        exact ih h

lemma dictGet_dictSet_other {α : Type} (m : List (String × α)) (k : String) (v : α)
    (k' : String) (h : k' ≠ k) : dictGet (dictSet m k v) k' = dictGet m k' := by
  induction m with
  | nil => rfl
  | cons p rest ih =>
      by_cases hp : (p.1 == k) = true
      · have hne : (k == k') = false := by
          simp only [beq_eq_false_iff_ne]
          exact fun hx => h hx.symm
        have hp2 : (p.1 == k') = false := by
          simp only [beq_iff_eq] at hp
          simp only [beq_eq_false_iff_ne, hp]
          exact fun hx => h hx.symm
        simp only [dictSet, List.map_cons, hp, if_true, dictGet, hne, hp2,
          Bool.false_eq_true, if_false]
        exact ih
      · simp only [dictSet, List.map_cons, hp, Bool.false_eq_true, if_false, dictGet]
        split
        · rfl
        · exact ih

lemma convsMono_dictSet (m : List (String × Conversation)) (k : String)
    (c v : Conversation) (hget : dictGet m k = some c) (hstep : ConvStep c v) :
    ConvsMono m (dictSet m k v) := by
  intro k' c' hg'
  by_cases hk : k' = k
  · subst hk
    rw [hget] at hg'
    obtain rfl := Option.some.inj hg'
    exact ⟨v, dictGet_dictSet_self m k' v c hget, hstep⟩
  · exact ⟨c', (dictGet_dictSet_other m k v k' hk).trans hg', convStep_refl c'⟩

end NeuralDive

namespace NeuralDive

lemma handle_wrong_answer_convs (g : Game) (conv : Conversation) (answer : Answer)
    (npc_name : String) (ie : Bool) :
    (handle_wrong_answer g conv answer npc_name ie).1.npc_conversations =
      g.npc_conversations := by
  simp only [handle_wrong_answer]
  repeat' split
  all_goals rfl

lemma handle_correct_answer_convs (g : Game) (key : String) (conv : Conversation)
    (answer : Answer) (npc_name : String) (ie : Bool)
    (hget : dictGet g.npc_conversations key = some conv)
    (hidx : conv.current_question_idx < conv.questions.length) :
    ConvsMono g.npc_conversations
      (handle_correct_answer g key conv answer npc_name ie).1.npc_conversations := by
  have hstep1 : ConvStep conv
      { conv with current_question_idx := conv.current_question_idx + 1 } := by
    refine ⟨rfl, rfl, rfl, rfl, ?_, ?_, fun h => h⟩
    · show conv.current_question_idx ≤ conv.current_question_idx + 1
      omega
    · show conv.current_question_idx + 1 ≤
        max conv.current_question_idx conv.questions.length
      omega
  have hstep2 : ConvStep { conv with current_question_idx := conv.current_question_idx + 1 }
      { conv with current_question_idx := conv.current_question_idx + 1, completed := true } :=
    ⟨rfl, rfl, rfl, rfl, le_refl _, le_max_left _ _, fun _ => rfl⟩
  have hm1 : ConvsMono g.npc_conversations (dictSet g.npc_conversations key
      { conv with current_question_idx := conv.current_question_idx + 1 }) :=
    convsMono_dictSet _ _ _ _ hget hstep1
  have hget1 : dictGet (dictSet g.npc_conversations key
      { conv with current_question_idx := conv.current_question_idx + 1 }) key =
      some { conv with current_question_idx := conv.current_question_idx + 1 } :=
    dictGet_dictSet_self _ _ _ _ hget
  have hm2 := convsMono_dictSet _ key _ _ hget1 hstep2
  have hcomp := convsMono_trans _ _ _ hm1 hm2
  unfold handle_correct_answer
  dsimp only
  repeat' split
  all_goals first
    | exact hm1
    | exact hcomp

set_option maxHeartbeats 1600000 in
lemma answer_question_convs (g : Game) (i : Int) :
    ConvsMono g.npc_conversations (answer_question g i).1.npc_conversations := by
  unfold answer_question
  split
  · exact convsMono_refl _
  · rename_i key hkey
    split
    · exact convsMono_refl _
    · rename_i conv hconv
      split
      · exact convsMono_dictSet _ _ _ _ hconv
          ⟨rfl, rfl, rfl, rfl, le_refl _, le_max_left _ _, fun _ => rfl⟩
      · rename_i hnotge
        dsimp only
        split
        · exact convsMono_refl _
        · split
          · rename_i hcorrect
            exact handle_correct_answer_convs
              { g with npc_opinions :=
                match dictGet g.npc_opinions conv.npc_name with
                | none => g.npc_opinions ++ [(conv.npc_name, 0)]
                | some _ => g.npc_opinions }
              key conv
              ((conv.questions.getD conv.current_question_idx default).answers.getD
                i.toNat default)
              conv.npc_name (conv.npc_type == NPCType.ENEMY) hconv (by omega)
          · rename_i hwrong
            rw [handle_wrong_answer_convs
              { g with npc_opinions :=
                match dictGet g.npc_opinions conv.npc_name with
                | none => g.npc_opinions ++ [(conv.npc_name, 0)]
                | some _ => g.npc_opinions }
              conv
              ((conv.questions.getD conv.current_question_idx default).answers.getD
                i.toNat default)
              conv.npc_name (conv.npc_type == NPCType.ENEMY)]
            exact convsMono_refl _

lemma handle_quest_npc_convs (g : Game) (n : String) (conv : Conversation)
    (hget : dictGet g.npc_conversations n = some conv) :
    ConvsMono g.npc_conversations (handle_quest_npc g n conv).1.npc_conversations := by
  unfold handle_quest_npc
  split
  · exact convsMono_dictSet _ _ _ _ hget
      ⟨rfl, rfl, rfl, rfl, le_refl _, le_max_left _ _, fun _ => rfl⟩
  · split
    · exact convsMono_refl _
    · exact convsMono_refl _

lemma interact_with_npc_convs (g : Game) (npc : Entity) :
    ConvsMono g.npc_conversations (interact_with_npc g npc).1.npc_conversations := by
  unfold interact_with_npc
  dsimp only
  split
  · exact convsMono_refl _
  · rename_i conversation hconv
    split
    · exact convsMono_dictSet _ _ _ _ hconv
        ⟨rfl, rfl, rfl, rfl, le_refl _, le_max_left _ _, fun _ => rfl⟩
    · split
      · exact handle_quest_npc_convs g npc.name conversation hconv
      · split
        · exact convsMono_refl _
        · exact convsMono_refl _

lemma exit_conversation_convs (g : Game) :
    (exit_conversation g).1.npc_conversations = g.npc_conversations := by
  unfold exit_conversation
  split
  · rfl
  · rfl

lemma move_player_convs (g : Game) (dx dy : Int) :
    (move_player g dx dy).1.npc_conversations = g.npc_conversations := by
  simp only [move_player]
  split
  · rfl
  · split
    · split
      · rfl
      · rfl
    · rfl

lemma descend_stairs_convs (g g' : Game) (b : Bool) (h : descend_stairs g = some (g', b)) :
    g'.npc_conversations = g.npc_conversations := by
  unfold descend_stairs at h
  split at h
  · simp only [Option.some.injEq, Prod.mk.injEq] at h
    obtain ⟨h1, -⟩ := h
    rw [← h1]
  · split at h
    · simp only [Option.some.injEq, Prod.mk.injEq] at h
      obtain ⟨h1, -⟩ := h
      rw [← h1]
    · exact absurd h (by simp)

lemma ascend_stairs_convs (g g' : Game) (b : Bool) (h : ascend_stairs g = some (g', b)) :
    g'.npc_conversations = g.npc_conversations := by
  unfold ascend_stairs at h
  split at h
  · simp only [Option.some.injEq, Prod.mk.injEq] at h
    obtain ⟨h1, -⟩ := h
    rw [← h1]
  · exact absurd h (by simp)

lemma use_stairs_convs (g g' : Game) (b : Bool) (h : use_stairs g = some (g', b)) :
    g'.npc_conversations = g.npc_conversations := by
  unfold use_stairs at h
  split at h
  · split at h
    · exact descend_stairs_convs g g' b h
    · exact ascend_stairs_convs g g' b h
  · simp only [Option.some.injEq, Prod.mk.injEq] at h
    obtain ⟨h1, -⟩ := h
    rw [← h1]

lemma interact_convs (g : Game) (r : Game × Bool) (h : interact g = some r) :
    ConvsMono g.npc_conversations r.1.npc_conversations := by
  unfold interact at h
  split at h
  · simp only [Option.some.injEq] at h
    rw [← h]
    exact convsMono_refl _
  · simp only [Option.some.injEq] at h
    rw [← h]
    exact convsMono_refl _
  · rename_i e n hchoice
    simp only [Option.some.injEq] at h
    have hm := interact_with_npc_convs g e
    rw [h] at hm
    exact hm
  · have heq := use_stairs_convs g r.1 r.2 h
    rw [heq]
    exact convsMono_refl _

lemma process_command_convs (g : Game) (cmd : String) (g' : Game) (ok : Bool) (msg : String)
    (h : process_command g cmd = some (g', ok, msg)) :
    ConvsMono g.npc_conversations g'.npc_conversations := by
  simp only [process_command] at h
  split at h
  · simp only [Option.some.injEq] at h
    have hm := answer_question_convs g
      ((if strip_lower cmd == "1" then 1
        else if strip_lower cmd == "2" then 2
        else if strip_lower cmd == "3" then 3 else 4) - 1)
    rw [h] at hm
    exact hm
  · split at h
    · simp only [Option.some.injEq, Prod.mk.injEq] at h
      obtain ⟨h1, -⟩ := h
      rw [← h1, move_player_convs]
      exact convsMono_refl _
    · split at h
      · simp only [Option.some.injEq, Prod.mk.injEq] at h
        obtain ⟨h1, -⟩ := h
        rw [← h1, move_player_convs]
        exact convsMono_refl _
      · split at h
        · simp only [Option.some.injEq, Prod.mk.injEq] at h
          obtain ⟨h1, -⟩ := h
          rw [← h1, move_player_convs]
          exact convsMono_refl _
        · split at h
          · simp only [Option.some.injEq, Prod.mk.injEq] at h
            obtain ⟨h1, -⟩ := h
            rw [← h1, move_player_convs]
            exact convsMono_refl _
          · split at h
            · split at h
              · exact absurd h (by simp)
              · rename_i r hmatch
                simp only [Option.some.injEq, Prod.mk.injEq] at h
                obtain ⟨h1, -⟩ := h
                have hm := interact_convs g r hmatch
                rw [h1] at hm
                exact hm
            · split at h
              · split at h
                · exact absurd h (by simp)
                · rename_i r hmatch
                  simp only [Option.some.injEq, Prod.mk.injEq] at h
                  obtain ⟨h1, -⟩ := h
                  have heq := use_stairs_convs g r.1 r.2 hmatch
                  rw [h1] at heq
                  rw [heq]
                  exact convsMono_refl _
              · split at h
                · simp only [Option.some.injEq, Prod.mk.injEq] at h
                  obtain ⟨h1, -⟩ := h
                  rw [← h1, exit_conversation_convs]
                  exact convsMono_refl _
                · simp only [Option.some.injEq, Prod.mk.injEq] at h
                  obtain ⟨h1, -⟩ := h
                  rw [← h1]
                  exact convsMono_refl _

lemma run_commands_convsMono : ∀ (cmds : List String) (g g' : Game),
    run_commands g cmds = some g' →
    ConvsMono g.npc_conversations g'.npc_conversations := by
  intro cmds
  induction cmds with
  | nil =>
      intro g g' h
      obtain rfl := Option.some.inj h
      exact convsMono_refl _
  | cons c cs ih =>
      intro g g' h
      unfold run_commands at h
      split at h
      · exact absurd h (by simp)
      · rename_i g2 okv msgv hstep
        exact convsMono_trans _ _ _
          (process_command_convs g c g2 okv msgv hstep) (ih g2 g' h)

end NeuralDive

open NeuralDive in
/-- C6: across any command sequence, every stored conversation keeps its
question list, its question index never decreases and never exceeds its
prior index or the question count, and `completed` is a one-way latch. -/
theorem conversation_state_monotonic (g : NeuralDive.Game) (cmds : List String)
    (g' : NeuralDive.Game) (hrun : NeuralDive.run_commands g cmds = some g')
    (key : String) (conv : NeuralDive.Conversation)
    (hconv : NeuralDive.dictGet g.npc_conversations key = some conv) :
    ∃ conv', NeuralDive.dictGet g'.npc_conversations key = some conv' ∧
      conv'.questions = conv.questions ∧
      conv.current_question_idx ≤ conv'.current_question_idx ∧
      conv'.current_question_idx ≤ max conv.current_question_idx conv.questions.length ∧
      (conv.completed = true → conv'.completed = true) := by
  obtain ⟨c', h1, hstep⟩ := NeuralDive.run_commands_convsMono cmds g g' hrun key conv hconv
  exact ⟨c', h1, hstep.2.2.1, hstep.2.2.2.2.1, hstep.2.2.2.2.2.1, hstep.2.2.2.2.2.2⟩

open NeuralDive in
/-- C6 witness: answering the single question correctly advances the index
from 0 to 1 (at most the question count) and latches completion. -/
theorem conversation_state_monotonic_witness :
    NeuralDive.quizConv.current_question_idx ≤ NeuralDive.quizConvAfter.current_question_idx ∧
    NeuralDive.quizConvAfter.current_question_idx ≤
      max NeuralDive.quizConv.current_question_idx NeuralDive.quizConv.questions.length ∧
    (NeuralDive.quizConv.completed = true → NeuralDive.quizConvAfter.completed = true) := by
  obtain ⟨c', h1, hq, hm1, hm2, hcomp⟩ := conversation_state_monotonic NeuralDive.quizGame
    ["2"] NeuralDive.quizGameAfter rfl "ALGO_SPIRIT" NeuralDive.quizConv rfl
  have h2 : NeuralDive.dictGet NeuralDive.quizGameAfter.npc_conversations "ALGO_SPIRIT" =
      some NeuralDive.quizConvAfter := by decide
  rw [h2] at h1
  obtain rfl := Option.some.inj h1
  exact ⟨hm1, hm2, hcomp⟩


namespace NeuralDive

set_option maxHeartbeats 1000000 in
lemma checkCreateMapDefault_0 : checkCreateMapDefault 0 = true := by decide

set_option maxHeartbeats 1000000 in
lemma checkCreateMapDefault_1 : checkCreateMapDefault 1 = true := by decide

set_option maxHeartbeats 1000000 in
lemma checkCreateMapDefault_2 : checkCreateMapDefault 2 = true := by decide

set_option maxHeartbeats 1000000 in
lemma checkCreateMapDefault_3 : checkCreateMapDefault 3 = true := by decide

end NeuralDive

open NeuralDive in
/-- C7 (amended): at the default 50 by 25 dimensions, `create_map` succeeds
for every floor number, the produced grid has WALL on the whole border and
FLOOR on exactly the interior cells not covered by the floor template, and
floors outside the authored 1..3 (for which `templateCell` is empty) yield
the bare room; determinism is inherent in `create_map` being a pure
function of (width, height, floor). -/
theorem create_map_default_dims_characterization (floor : Nat) :
    ∃ g, NeuralDive.create_map 50 25 floor = some g ∧
      NeuralDive.checkGrid floor 50 25 g = true := by
  match floor with
  | 0 => exact NeuralDive.exists_of_checkCreateMapDefault 0 NeuralDive.checkCreateMapDefault_0
  | 1 => exact NeuralDive.exists_of_checkCreateMapDefault 1 NeuralDive.checkCreateMapDefault_1
  | 2 => exact NeuralDive.exists_of_checkCreateMapDefault 2 NeuralDive.checkCreateMapDefault_2
  | 3 => exact NeuralDive.exists_of_checkCreateMapDefault 3 NeuralDive.checkCreateMapDefault_3
  | (n + 4) =>
      have h1 : n + 4 ≠ 1 := by omega
      have h2 : n + 4 ≠ 2 := by omega
      have h3 : n + 4 ≠ 3 := by omega
      rw [NeuralDive.create_map_no_template 50 25 (n + 4) h1 h2 h3]
      obtain ⟨g, hg, hc⟩ :=
        NeuralDive.exists_of_checkCreateMapDefault 0 NeuralDive.checkCreateMapDefault_0
      refine ⟨g, hg, ?_⟩
      rw [NeuralDive.checkGrid_no_template (n + 4) 50 25 g h1 h2 h3]
      exact hc

namespace NeuralDive

lemma strip_lower_digit_1 : strip_lower "1" = "1" := by decide

lemma strip_lower_digit_2 : strip_lower "2" = "2" := by decide

lemma strip_lower_digit_3 : strip_lower "3" = "3" := by decide

lemma strip_lower_digit_4 : strip_lower "4" = "4" := by decide

end NeuralDive

open NeuralDive in
/-- C10: a digit command 1-4 with no active conversation falls through every
dispatch branch of `process_command` and returns failure with an unknown
command message, leaving the game state unchanged. -/
theorem digit_command_without_conversation_unknown (g : NeuralDive.Game) (cmd : String)
    (hc : cmd = "1" ∨ cmd = "2" ∨ cmd = "3" ∨ cmd = "4")
    (ha : g.active_conversation = none) :
    NeuralDive.process_command g cmd = some (g, false, "Unknown command: " ++ cmd) := by
  rcases hc with h | h | h | h <;> subst h <;>
    simp [NeuralDive.process_command, NeuralDive.strip_lower_digit_1,
      NeuralDive.strip_lower_digit_2, NeuralDive.strip_lower_digit_3,
      NeuralDive.strip_lower_digit_4, ha]

open NeuralDive in
/-- C10 witness: the concrete base state with command 1. -/
theorem digit_command_without_conversation_unknown_witness :
    NeuralDive.process_command NeuralDive.baseGame "1" =
      some (NeuralDive.baseGame, false, "Unknown command: 1") :=
  digit_command_without_conversation_unknown NeuralDive.baseGame "1" (Or.inl rfl) rfl

open NeuralDive in
/-- C9: with coherence 5 and an incorrect non-enemy answer (penalty 30), the
answer fails, coherence clamps to exactly 0, the active conversation is
cleared, and the conversation record itself (index and completed flag) is
untouched. -/
theorem wrong_answer_clamps_and_clears (g : NeuralDive.Game) (key : String)
    (conv : NeuralDive.Conversation) (i : Int)
    (hact : g.active_conversation = some key)
    (hconv : NeuralDive.dictGet g.npc_conversations key = some conv)
    (hidx : conv.current_question_idx < conv.questions.length)
    (hne : conv.npc_type ≠ NeuralDive.NPCType.ENEMY)
    (hi0 : 0 ≤ i)
    (hilen : i < ((conv.questions.getD conv.current_question_idx default).answers.length : Int))
    (hwrong : ((conv.questions.getD conv.current_question_idx default).answers.getD
      i.toNat default).correct = false)
    (hcoh : g.coherence = 5) :
    (NeuralDive.answer_question g i).2.1 = false ∧
    (NeuralDive.answer_question g i).1.coherence = 0 ∧
    (NeuralDive.answer_question g i).1.active_conversation = none ∧
    NeuralDive.dictGet (NeuralDive.answer_question g i).1.npc_conversations key = some conv := by
  have henemy : (conv.npc_type == NeuralDive.NPCType.ENEMY) = false :=
    beq_eq_false_iff_ne.mpr hne
  have hnotge : ¬ (conv.current_question_idx ≥ conv.questions.length) := by omega
  have hnotbad : ¬ (i < 0 ∨ i ≥ ((conv.questions.getD conv.current_question_idx
      default).answers.length : Int)) := by omega
  simp only [NeuralDive.answer_question, hact, hconv, if_neg hnotge, if_neg hnotbad,
    hwrong, henemy, NeuralDive.handle_wrong_answer, hcoh,
    NeuralDive.WRONG_ANSWER_COHERENCE_PENALTY]
  norm_num [hconv]

open NeuralDive in
/-- C9 witness at the concrete low-coherence state. -/
theorem wrong_answer_clamps_and_clears_witness :
    (NeuralDive.answer_question NeuralDive.lowCoherenceGame 0).2.1 = false ∧
    (NeuralDive.answer_question NeuralDive.lowCoherenceGame 0).1.coherence = 0 ∧
    (NeuralDive.answer_question NeuralDive.lowCoherenceGame 0).1.active_conversation = none ∧
    NeuralDive.dictGet (NeuralDive.answer_question NeuralDive.lowCoherenceGame 0).1.npc_conversations
      "ALGO_SPIRIT" = some NeuralDive.quizConv :=
  wrong_answer_clamps_and_clears NeuralDive.lowCoherenceGame "ALGO_SPIRIT" NeuralDive.quizConv 0
    rfl rfl (by decide) (by decide) (by decide) (by decide) (by decide) rfl

open NeuralDive in
/-- C1: evaluation showing the quest completion bonus is granted again on
every re-interaction once the target set is satisfied: coherence climbs from
10 to 60 on the first interaction and to 100 on the second. -/
theorem quest_bonus_regrants_on_reinteraction :
    (NeuralDive.interact_with_npc NeuralDive.questGame NeuralDive.oracleNpc).1.coherence = 60 ∧
    (NeuralDive.interact_with_npc
      (NeuralDive.interact_with_npc NeuralDive.questGame NeuralDive.oracleNpc).1
      NeuralDive.oracleNpc).1.coherence = 100 ∧
    (NeuralDive.interact_with_npc
      (NeuralDive.interact_with_npc NeuralDive.questGame NeuralDive.oracleNpc).1
      NeuralDive.oracleNpc).1.message =
      "ORACLE: You have completed my quest! The knowledge is yours. [Quest Complete! +50 Coherence]" := by
  decide
